import Mathlib

/-!
Shallow embedding of the registration / waitlist state machine of the
membership-event-registration repository.

Sources embedded here:
* `events/registration.service.ts` (register, confirmPayment,
  cancelRegistration and their helpers),
* `events/waitlist.service.ts` (processWaitlist, offerSpot, acceptOffer,
  declineOffer, processExpiredOffers, reorderWaitlistPositions),
* the cron controller (cleanup of stale pending registrations),
* the SQL triggers `update_event_seat_count` and `assign_waitlist_position`,
* the Prisma schema / init migration (field defaults, the blanket unique
  indexes `event_registrations_eventId_userId_key` and
  `waitlist_eventId_userId_key`).

Modelling conventions:
* ids and timestamps are `Nat` (timestamps counted in hours, so the
  48-hour offer deadline is `now + 48` and the 24-hour cleanup cutoff is
  `now - 24`);
* `currentSeats` is `Int`, as in the SQL column, so the non-negativity
  invariant is a real statement;
* every service method runs inside one Prisma `$transaction`; a thrown
  exception rolls the transaction back, so an operation is a function
  `DB → Except SvcError (DB × result)` and the error case carries no
  partial writes;
* the identity collaborator (users table) and the notification
  collaborator (email sends) are out of scope: the denormalized `email`
  column is filled with the empty string and email calls are dropped,
  they never alter rows;
* the payment collaborator is an explicit input: `Except String String`
  is the outcome of `stripeService.createEventCheckoutSession`, either a
  checkout URL or a thrown exception message.
-/

namespace EventReg

/-- `RegistrationStatus` enum of the Prisma schema. -/
inductive RegStatus where
  | pending
  | confirmed
  | cancelled
  | completed
deriving DecidableEq, Repr

/-- `PaymentStatus` enum of the Prisma schema. -/
inductive PayStatus where
  | pending
  | completed
  | failed
deriving DecidableEq, Repr

/-- `WaitlistStatus` enum of the Prisma schema. -/
inductive WStatus where
  | waiting
  | offered
  | accepted
  | expired
  | declined
deriving DecidableEq, Repr

/-- `EventStatus` enum of the Prisma schema; `register` only admits
`published` (`PUBLISHED`). -/
inductive EvStatus where
  | draft
  | published
  | completed
  | cancelled
deriving DecidableEq, Repr

/-- The fields of the `events` table that the registration and waitlist
services read (`maxSeats`, `currentSeats`, `isFree`, `price`, `status`,
`registrationDeadline`). -/
structure Event where
  id : Nat
  maxSeats : Nat
  currentSeats : Int
  isFree : Bool
  price : Option Nat
  registrationDeadline : Option Nat
  status : EvStatus
deriving DecidableEq, Repr

/-- A row of `event_registrations`. -/
structure Registration where
  id : Nat
  eventId : Nat
  userId : Nat
  status : RegStatus
  paymentStatus : Option PayStatus
  stripeSessionId : Option String
  registeredAt : Nat
  confirmedAt : Option Nat
  cancelledAt : Option Nat
  cancelReason : Option String
deriving DecidableEq, Repr

/-- A row of `waitlist`. -/
structure WaitlistEntry where
  id : Nat
  eventId : Nat
  userId : Nat
  email : String
  position : Nat
  status : WStatus
  offeredAt : Option Nat
  expiresAt : Option Nat
  respondedAt : Option Nat
deriving DecidableEq, Repr

/-- The mutable store: the three tables plus the id generator standing in
for `@default(uuid())`. -/
structure DB where
  events : List Event
  registrations : List Registration
  waitlist : List WaitlistEntry
  nextId : Nat
deriving DecidableEq, Repr

/-- Errors thrown by the services.  Each constructor corresponds to one
thrown exception in the source; `uniqueViolation` is the database
rejecting an insert that hits a unique index, and `externalError` is an
exception of the payment collaborator propagating uncaught through the
transaction. -/
inductive SvcError where
  | eventNotFound
  | eventNotOpen
  | deadlinePassed
  | alreadyRegistered
  | alreadyWaitlisted
  | registrationNotFound
  | registrationNotPending
  | cannotCancel
  | waitlistEntryNotFound
  | notAuthorized
  | noActiveOffer
  | offerExpired
  | noSpotsAvailable
  | uniqueViolation
  | externalError (msg : String)
deriving DecidableEq, Repr

/-- `RegistrationResult` of `registration.service.ts`: discriminated on
the `type` field (`registration` / `checkout` / `waitlist`). -/
inductive RegResult where
  | registration (reg : Registration)
  | checkout (checkoutUrl : String) (reg : Registration)
  | waitlist (entry : WaitlistEntry)
deriving DecidableEq, Repr

/-- `AcceptResult` of `waitlist.service.ts`: the interface has only the
fields `type` (`confirmed` / `pending`) and `registration` — it carries
no checkout URL. -/
inductive AcceptResult where
  | confirmed (reg : Registration)
  | pending (reg : Registration)
deriving DecidableEq, Repr

/-- The `checkoutUrl` carried by a `RegistrationResult`, if any. -/
def RegResult.checkoutRef : RegResult → Option String
  | .checkout url _ => some url
  | _ => none

/-- The checkout reference carried by an `AcceptResult`.  The source
interface `AcceptResult` has no such field, so this is `none` on both
constructors. -/
def AcceptResult.checkoutRef : AcceptResult → Option String
  | _ => none

/-! ### Row lookups (`findUnique` / `findFirst`) -/

/-- `tx.event.findUnique({ where: { id } })`. -/
def findEvent (db : DB) (eventId : Nat) : Option Event :=
  db.events.find? (fun ev => ev.id == eventId)

/-- `tx.eventRegistration.findUnique({ where: { eventId_userId } })`. -/
def findRegByEventUser (db : DB) (eventId userId : Nat) : Option Registration :=
  db.registrations.find? (fun r => r.eventId == eventId && r.userId == userId)

/-- `tx.eventRegistration.findUnique({ where: { id } })`. -/
def findRegById (db : DB) (registrationId : Nat) : Option Registration :=
  db.registrations.find? (fun r => r.id == registrationId)

/-- `tx.waitlistEntry.findUnique({ where: { eventId_userId } })`. -/
def findWaitByEventUser (db : DB) (eventId userId : Nat) : Option WaitlistEntry :=
  db.waitlist.find? (fun w => w.eventId == eventId && w.userId == userId)

/-- `tx.waitlistEntry.findUnique({ where: { id } })`. -/
def findWaitById (db : DB) (waitlistEntryId : Nat) : Option WaitlistEntry :=
  db.waitlist.find? (fun w => w.id == waitlistEntryId)

/-! ### The SQL triggers -/

/-- `UPDATE events SET current_seats = f(current_seats) WHERE id = eventId`. -/
def setSeats (db : DB) (eventId : Nat) (f : Int → Int) : DB :=
  { db with
    events := db.events.map fun ev =>
      if ev.id == eventId then { ev with currentSeats := f ev.currentSeats } else ev }

/-- Trigger operation discriminator (`TG_OP`) together with the affected
row(s). -/
inductive TgOp where
  | insertRow (new : Registration)
  | updateRow (old new : Registration)
  | deleteRow (old : Registration)

/-- The `update_event_seat_count` trigger function on `event_registrations`:
inserts of a `CONFIRMED` row add one seat; updates entering `CONFIRMED`
add one; updates leaving `CONFIRMED` for `CANCELLED`/`COMPLETED` subtract
one with a `GREATEST(.., 0)` floor; deletes of a `CONFIRMED` row likewise. -/
def update_event_seat_count (db : DB) : TgOp → DB
  | .insertRow new =>
      if new.status = .confirmed then setSeats db new.eventId (· + 1) else db
  | .updateRow old new =>
      if old.status ≠ .confirmed ∧ new.status = .confirmed then
        setSeats db new.eventId (· + 1)
      else if old.status = .confirmed ∧ (new.status = .cancelled ∨ new.status = .completed) then
        setSeats db new.eventId (fun c => max (c - 1) 0)
      else db
  | .deleteRow old =>
      if old.status = .confirmed then
        setSeats db old.eventId (fun c => max (c - 1) 0)
      else db

/-- The `assign_waitlist_position` trigger: `COALESCE(MAX(position), 0) + 1`
over the rows of the event whose status is `WAITING` or `OFFERED`. -/
def assign_waitlist_position (db : DB) (eventId : Nat) : Nat :=
  (db.waitlist.foldl
    (fun m w =>
      if w.eventId == eventId && (w.status == .waiting || w.status == .offered) then
        max m w.position
      else m)
    0) + 1

/-! ### Writes (`create` / `update`), firing the triggers -/

/-- `tx.eventRegistration.create`: the blanket unique index
`event_registrations_eventId_userId_key` rejects the insert when any row
for the pair already exists (whatever its status); on success the row
gets a fresh id and the seat-count trigger fires. -/
def insertRegistration (db : DB) (mk : Nat → Registration) :
    Except SvcError (DB × Registration) :=
  let r := mk db.nextId
  if db.registrations.any (fun x => x.eventId == r.eventId && x.userId == r.userId) then
    .error .uniqueViolation
  else
    let db₁ : DB := { db with registrations := db.registrations ++ [r], nextId := db.nextId + 1 }
    .ok (update_event_seat_count db₁ (.insertRow r), r)

/-- `tx.waitlistEntry.create`: the blanket unique index
`waitlist_eventId_userId_key` rejects duplicates; the `BEFORE INSERT`
trigger overwrites the supplied position with `MAX(live position) + 1`. -/
def insertWaitlistEntry (db : DB) (mk : Nat → WaitlistEntry) :
    Except SvcError (DB × WaitlistEntry) :=
  let w₀ := mk db.nextId
  if db.waitlist.any (fun x => x.eventId == w₀.eventId && x.userId == w₀.userId) then
    .error .uniqueViolation
  else
    let w := { w₀ with position := assign_waitlist_position db w₀.eventId }
    .ok ({ db with waitlist := db.waitlist ++ [w], nextId := db.nextId + 1 }, w)

/-- `tx.eventRegistration.update({ where: { id } })`: patch the row and
fire the seat-count trigger with the old and new row. -/
def updateRegistration (db : DB) (registrationId : Nat)
    (f : Registration → Registration) : DB :=
  match findRegById db registrationId with
  | none => db
  | some old =>
      let db₁ : DB :=
        { db with
          registrations := db.registrations.map fun r =>
            if r.id == registrationId then f r else r }
      update_event_seat_count db₁ (.updateRow old (f old))

/-- `tx.waitlistEntry.update({ where: { id } })`; no trigger listens on
`waitlist` updates. -/
def updateWaitlist (db : DB) (waitlistEntryId : Nat)
    (f : WaitlistEntry → WaitlistEntry) : DB :=
  { db with
    waitlist := db.waitlist.map fun w =>
      if w.id == waitlistEntryId then f w else w }

/-! ### Waitlist service: promotion -/

/-- The `findFirst({ where: { eventId, status: WAITING }, orderBy: { position: asc } })`
query of `processWaitlist`: the waiting entry with the least position
(first in row order among equals). -/
def nextInLine (db : DB) (eventId : Nat) : Option WaitlistEntry :=
  (db.waitlist.filter fun w => w.eventId == eventId && w.status == .waiting).foldl
    (fun acc w =>
      match acc with
      | none => some w
      | some b => if w.position < b.position then some w else acc)
    none

/-- `offerSpot`: transition the entry to `OFFERED`, stamping `offeredAt`
and a 48-hour `expiresAt` deadline (the offer email is a dropped
notification side effect). -/
def offerSpot (db : DB) (entry : WaitlistEntry) (now : Nat) : DB :=
  updateWaitlist db entry.id fun w =>
    { w with status := .offered, offeredAt := some now, expiresAt := some (now + 48) }

/-- `processWaitlist` (the promote-next operation): no-op when the event
is missing, has no free seat (`currentSeats >= maxSeats`), or has no
`WAITING` entry; otherwise offer the spot to the single next entry in
line. -/
def processWaitlist (db : DB) (eventId now : Nat) : DB :=
  match findEvent db eventId with
  | none => db
  | some event =>
      if (event.maxSeats : Int) ≤ event.currentSeats then db
      else
        match nextInLine db eventId with
        | none => db
        | some entry => offerSpot db entry now

/-! ### Registration service -/

/-- The deadline test of `validateEventRegistration`:
`new Date() > event.registrationDeadline` when a deadline is set. -/
def deadlinePassed (event : Event) (now : Nat) : Bool :=
  match event.registrationDeadline with
  | some d => decide (d < now)
  | none => false

/-- `createConfirmedRegistration` (free events): insert a `CONFIRMED`
row stamped `confirmedAt = now`; the seat count rises via the trigger. -/
def createConfirmedRegistration (db : DB) (userId eventId now : Nat) :
    Except SvcError (DB × RegResult) :=
  match insertRegistration db (fun id =>
    { id := id, eventId := eventId, userId := userId, status := .confirmed,
      paymentStatus := none, stripeSessionId := none, registeredAt := now,
      confirmedAt := some now, cancelledAt := none, cancelReason := none }) with
  | .error e => .error e
  | .ok (db', reg) => .ok (db', .registration reg)

/-- `createPendingRegistration` (paid events): insert a `PENDING` row,
then call the payment collaborator for a checkout URL inside the same
transaction; a collaborator exception propagates and rolls the insert
back. -/
def createPendingRegistration (db : DB) (userId eventId now : Nat)
    (checkout : Except String String) : Except SvcError (DB × RegResult) :=
  match insertRegistration db (fun id =>
    { id := id, eventId := eventId, userId := userId, status := .pending,
      paymentStatus := some .pending, stripeSessionId := none, registeredAt := now,
      confirmedAt := none, cancelledAt := none, cancelReason := none }) with
  | .error e => .error e
  | .ok (db', reg) =>
      match checkout with
      | .error msg => .error (.externalError msg)
      | .ok checkoutUrl => .ok (db', .checkout checkoutUrl reg)

/-- `addToWaitlist`: insert a `WAITING` entry; the supplied position 0 is
overwritten by the `assign_waitlist_position` trigger. -/
def addToWaitlist (db : DB) (userId eventId : Nat) :
    Except SvcError (DB × RegResult) :=
  match insertWaitlistEntry db (fun id =>
    { id := id, eventId := eventId, userId := userId, email := "",
      position := 0, status := .waiting, offeredAt := none, expiresAt := none,
      respondedAt := none }) with
  | .error e => .error e
  | .ok (db', entry) => .ok (db', .waitlist entry)

/-- The duplicate-registration guard of `register`:
`existingRegistration && existingRegistration.status !== CANCELLED`. -/
def blockedByRegistration (db : DB) (eventId userId : Nat) : Bool :=
  match findRegByEventUser db eventId userId with
  | some r => r.status != .cancelled
  | none => false

/-- The duplicate-waitlist guard of `register`:
`existingWaitlist && [WAITING, OFFERED].includes(existingWaitlist.status)`. -/
def blockedByWaitlist (db : DB) (eventId userId : Nat) : Bool :=
  match findWaitByEventUser db eventId userId with
  | some w => w.status == .waiting || w.status == .offered
  | none => false

/-- `register(userId, eventId)`: the main entry point, one transaction. -/
def register (db : DB) (userId eventId now : Nat)
    (checkout : Except String String) : Except SvcError (DB × RegResult) :=
  match findEvent db eventId with
  | none => .error .eventNotFound
  | some event =>
      if event.status ≠ .published then .error .eventNotOpen
      else if deadlinePassed event now then .error .deadlinePassed
      else if blockedByRegistration db eventId userId then .error .alreadyRegistered
      else if blockedByWaitlist db eventId userId then .error .alreadyWaitlisted
      else if (event.maxSeats : Int) ≤ event.currentSeats then
        addToWaitlist db userId eventId
      else if event.isFree then
        createConfirmedRegistration db userId eventId now
      else
        createPendingRegistration db userId eventId now checkout

/-- `confirmPayment(registrationId, stripeSessionId)`: the webhook
handler; guarded to rows in `PENDING`, then transition to `CONFIRMED`
(the seat count rises via the trigger). -/
def confirmPayment (db : DB) (registrationId : Nat) (stripeSessionId : String)
    (now : Nat) : Except SvcError DB :=
  match findRegById db registrationId with
  | none => .error .registrationNotFound
  | some registration =>
      if registration.status ≠ .pending then .error .registrationNotPending
      else
        .ok (updateRegistration db registrationId fun r =>
          { r with status := .confirmed, paymentStatus := some .completed,
                   stripeSessionId := some stripeSessionId, confirmedAt := some now })

/-- `cancelRegistration(userId, eventId, reason?)`: allowed from
`PENDING` or `CONFIRMED`; stamp `cancelledAt` and the reason; the trigger
releases the seat when the prior status was `CONFIRMED`, and only then is
the waitlist processed, inside the same transaction. -/
def cancelRegistration (db : DB) (userId eventId : Nat) (reason : Option String)
    (now : Nat) : Except SvcError DB :=
  match findRegByEventUser db eventId userId with
  | none => .error .registrationNotFound
  | some registration =>
      if ¬(registration.status = .pending ∨ registration.status = .confirmed) then
        .error .cannotCancel
      else
        let db₁ := updateRegistration db registration.id fun r =>
          { r with status := .cancelled, cancelledAt := some now, cancelReason := reason }
        if registration.status = .confirmed then
          .ok (processWaitlist db₁ eventId now)
        else
          .ok db₁

/-! ### Waitlist service: offer responses -/

/-- `acceptOffer(userId, waitlistEntryId)`.  In the expired branch the
source marks the entry `EXPIRED` with `respondedAt = now` and then throws
`Offer has expired`; the throw aborts the surrounding transaction and
rolls that write back, so the error case leaves the store untouched. -/
def acceptOffer (db : DB) (userId waitlistEntryId now : Nat) :
    Except SvcError (DB × AcceptResult) :=
  match findWaitById db waitlistEntryId with
  | none => .error .waitlistEntryNotFound
  | some entry =>
      if entry.userId ≠ userId then .error .notAuthorized
      else if entry.status ≠ .offered then .error .noActiveOffer
      else if (match entry.expiresAt with
               | some e => decide (e < now)
               | none => false) then .error .offerExpired
      else
        match findEvent db entry.eventId with
        | none => .error .noSpotsAvailable
        | some event =>
            if (event.maxSeats : Int) ≤ event.currentSeats then .error .noSpotsAvailable
            else
              let db₁ := updateWaitlist db entry.id fun w =>
                { w with status := .accepted, respondedAt := some now }
              if event.isFree then
                match insertRegistration db₁ (fun id =>
                  { id := id, eventId := entry.eventId, userId := entry.userId,
                    status := .confirmed, paymentStatus := none,
                    stripeSessionId := none, registeredAt := now,
                    confirmedAt := some now, cancelledAt := none,
                    cancelReason := none }) with
                | .error e => .error e
                | .ok (db₂, reg) => .ok (db₂, .confirmed reg)
              else
                match insertRegistration db₁ (fun id =>
                  { id := id, eventId := entry.eventId, userId := entry.userId,
                    status := .pending, paymentStatus := some .pending,
                    stripeSessionId := none, registeredAt := now,
                    confirmedAt := none, cancelledAt := none,
                    cancelReason := none }) with
                | .error e => .error e
                | .ok (db₂, reg) => .ok (db₂, .pending reg)

/-- `declineOffer(userId, waitlistEntryId)`: transition to `DECLINED`,
stamp `respondedAt`, then process the waitlist of the event.  No
position renumbering happens here. -/
def declineOffer (db : DB) (userId waitlistEntryId now : Nat) :
    Except SvcError DB :=
  match findWaitById db waitlistEntryId with
  | none => .error .waitlistEntryNotFound
  | some entry =>
      if entry.userId ≠ userId then .error .notAuthorized
      else if entry.status ≠ .offered then .error .noActiveOffer
      else
        let db₁ := updateWaitlist db entry.id fun w =>
          { w with status := .declined, respondedAt := some now }
        .ok (processWaitlist db₁ entry.eventId now)

/-! ### Cron sweeps -/

/-- `reorderWaitlistPositions`: renumber the `WAITING` entries of an
event to 1, 2, … in ascending order of their current positions.  Entries
in status `OFFERED` keep their positions and are not part of the
renumbering. -/
def sortByPosInsert (w : WaitlistEntry) : List WaitlistEntry → List WaitlistEntry
  | [] => [w]
  | x :: xs => if w.position < x.position then w :: x :: xs else x :: sortByPosInsert w xs

/-- Stable sort by position, standing for `orderBy: { position: asc }`. -/
def sortByPos : List WaitlistEntry → List WaitlistEntry
  | [] => []
  | x :: xs => sortByPosInsert x (sortByPos xs)

/-- The loop body of `reorderWaitlistPositions`. -/
def reorderWaitlistPositions (db : DB) (eventId : Nat) : DB :=
  let activeEntries :=
    sortByPos (db.waitlist.filter fun w => w.eventId == eventId && w.status == .waiting)
  activeEntries.enum.foldl
    (fun acc iw => updateWaitlist acc iw.2.id fun w => { w with position := iw.1 + 1 })
    db

/-- One iteration of the `processExpiredOffers` loop, its own
transaction: mark the offer `EXPIRED`, close the gap among the remaining
`WAITING` entries, then offer the seat to the next entry. -/
def expireOneOffer (db : DB) (offer : WaitlistEntry) (now : Nat) : DB :=
  let db₁ := updateWaitlist db offer.id fun w => { w with status := .expired }
  let db₂ := reorderWaitlistPositions db₁ offer.eventId
  processWaitlist db₂ offer.eventId now

/-- `processExpiredOffers` (cron, every 15 minutes): snapshot all
`OFFERED` entries whose `expiresAt` lies in the past, then process each
in its own transaction. -/
def processExpiredOffers (db : DB) (now : Nat) : DB :=
  let expiredOffers := db.waitlist.filter fun w =>
    w.status == .offered &&
      (match w.expiresAt with
       | some e => decide (e < now)
       | none => false)
  expiredOffers.foldl (fun acc offer => expireOneOffer acc offer now) db

/-- The loop of the pending-registration cleanup cron: each cancellation
runs in its own transaction; an error aborts the remaining iterations
but keeps the cancellations already committed. -/
def cleanupLoop (now : Nat) : DB → List Registration → DB
  | db, [] => db
  | db, r :: rest =>
      match cancelRegistration db r.userId r.eventId
          (some "Payment timeout - auto cancelled") now with
      | .ok db' => cleanupLoop now db' rest
      | .error _ => db

/-- `cleanupPendingRegistrations` (cron, hourly): cancel every `PENDING`
registration older than 24 hours with the payment-timeout reason. -/
def cleanupPendingRegistrations (db : DB) (now : Nat) : DB :=
  cleanupLoop now db
    (db.registrations.filter fun r =>
      r.status == .pending && decide (r.registeredAt < now - 24))

/-! ### Traces and reachability -/

/-- One externally triggered operation, with its injected inputs (caller,
wall clock, payment-collaborator outcome). -/
inductive Act where
  | register (userId eventId now : Nat) (checkout : Except String String)
  | confirmPayment (registrationId : Nat) (stripeSessionId : String) (now : Nat)
  | cancelRegistration (userId eventId : Nat) (reason : Option String) (now : Nat)
  | acceptOffer (userId waitlistEntryId now : Nat)
  | declineOffer (userId waitlistEntryId now : Nat)
  | sweepExpireOffers (now : Nat)
  | sweepCleanupPending (now : Nat)
deriving Repr

/-- Whether the action is a payment-confirmation webhook delivery. -/
def Act.isConfirmPayment : Act → Bool
  | .confirmPayment _ _ _ => true
  | _ => false

/-- Run one operation against the store: a failed transaction rolls back,
leaving the store unchanged. -/
def runAct (db : DB) : Act → DB
  | .register u e now chk =>
      match register db u e now chk with
      | .ok (db', _) => db'
      | .error _ => db
  | .confirmPayment rid sid now =>
      match confirmPayment db rid sid now with
      | .ok db' => db'
      | .error _ => db
  | .cancelRegistration u e reason now =>
      match cancelRegistration db u e reason now with
      | .ok db' => db'
      | .error _ => db
  | .acceptOffer u wid now =>
      match acceptOffer db u wid now with
      | .ok (db', _) => db'
      | .error _ => db
  | .declineOffer u wid now =>
      match declineOffer db u wid now with
      | .ok db' => db'
      | .error _ => db
  | .sweepExpireOffers now => processExpiredOffers db now
  | .sweepCleanupPending now => cleanupPendingRegistrations db now

/-- Run a sequence of operations. -/
def runTrace (db : DB) (acts : List Act) : DB :=
  acts.foldl runAct db

/-- An initial store: events exist (created by the out-of-scope content
collaborator with the schema default `currentSeats = 0`), no registration
or waitlist rows yet. -/
def InitDB (db : DB) : Prop :=
  db.registrations = [] ∧ db.waitlist = [] ∧ ∀ ev ∈ db.events, ev.currentSeats = 0

instance (db : DB) : Decidable (InitDB db) := by
  unfold InitDB; infer_instance

/-- A store reachable from some initial store by the exposed operations. -/
def Reachable (db : DB) : Prop :=
  ∃ db₀ acts, InitDB db₀ ∧ db = runTrace db₀ acts

/-! ### Invariant predicates -/

/-- Lower seat bound: no offering has a negative confirmed-seat count. -/
def SeatLB (db : DB) : Prop :=
  ∀ ev ∈ db.events, 0 ≤ ev.currentSeats

instance (db : DB) : Decidable (SeatLB db) := by
  unfold SeatLB; infer_instance

/-- Upper seat bound: no offering's confirmed-seat count exceeds its
capacity. -/
def SeatUB (db : DB) : Prop :=
  ∀ ev ∈ db.events, ev.currentSeats ≤ (ev.maxSeats : Int)

instance (db : DB) : Decidable (SeatUB db) := by
  unfold SeatUB; infer_instance

/-- Well-formedness of the `events` table: ids are a primary key. -/
def EvIdsNodup (db : DB) : Prop :=
  (db.events.map Event.id).Nodup

instance (db : DB) : Decidable (EvIdsNodup db) := by
  unfold EvIdsNodup; infer_instance

/-- Well-formedness of the `event_registrations` table: ids are a
primary key. -/
def RegIdsNodup (db : DB) : Prop :=
  (db.registrations.map Registration.id).Nodup

instance (db : DB) : Decidable (RegIdsNodup db) := by
  unfold RegIdsNodup; infer_instance

/-- A waitlist entry is live when its status is `WAITING` or `OFFERED`. -/
def liveW (w : WaitlistEntry) : Bool :=
  w.status == .waiting || w.status == .offered

/-- The positions of the live waitlist entries of an event, in row order. -/
def livePositions (db : DB) (eventId : Nat) : List Nat :=
  (db.waitlist.filter fun w => w.eventId == eventId && liveW w).map WaitlistEntry.position

/-- Density: for every offering, the live positions are exactly
`{1, …, n}` (no gaps, no duplicates). -/
def DensePositions (db : DB) : Prop :=
  ∀ ev ∈ db.events,
    (livePositions db ev.id).Perm (List.range' 1 (livePositions db ev.id).length)

instance (db : DB) : Decidable (DensePositions db) := by
  unfold DensePositions; infer_instance

/-- For a payment-confirmation action: the offering of the target
registration still has a free seat.  Vacuously true for the other
actions. -/
def ConfirmTargetFree (db : DB) : Act → Prop
  | .confirmPayment rid _ _ =>
      ∀ r, findRegById db rid = some r →
        ∀ ev, findEvent db r.eventId = some ev →
          ev.currentSeats < (ev.maxSeats : Int)
  | _ => True

/-! ### Concrete stores used in witnesses and counterexamples -/

/-- A published free offering with one seat. -/
def freeEvent1 : Event :=
  { id := 1, maxSeats := 1, currentSeats := 0, isFree := true, price := none,
    registrationDeadline := none, status := .published }

/-- A published paid offering with one seat. -/
def paidEvent1 : Event :=
  { id := 1, maxSeats := 1, currentSeats := 0, isFree := false, price := some 50,
    registrationDeadline := none, status := .published }

/-- Initial store holding only the paid one-seat offering. -/
def paidInit : DB :=
  { events := [paidEvent1], registrations := [], waitlist := [], nextId := 10 }

/-- Initial store holding only the free one-seat offering. -/
def freeInit : DB :=
  { events := [freeEvent1], registrations := [], waitlist := [], nextId := 10 }

/-- Oversell trace: two subjects register for the paid one-seat offering
(both `PENDING`, no seat held), then both payment webhooks confirm. -/
def c1Acts : List Act :=
  [.register 100 1 0 (.ok "url1"), .register 101 1 0 (.ok "url2"),
   .confirmPayment 10 "cs1" 1, .confirmPayment 11 "cs2" 2]

/-- The store after the oversell trace: `currentSeats = 2 > maxSeats = 1`. -/
def c1Final : DB := runTrace paidInit c1Acts

/-- Store with a lone cancelled registration row for (offering 1,
subject 100). -/
def c3db : DB :=
  { events := [freeEvent1]
    registrations := [
      { id := 5, eventId := 1, userId := 100, status := .cancelled,
        paymentStatus := none, stripeSessionId := none, registeredAt := 0,
        confirmedAt := none, cancelledAt := some 1, cancelReason := none }]
    waitlist := []
    nextId := 20 }

/-- Store with a confirmed registration (seat held) and one waiting
entry, for exercising cancellation with promotion. -/
def c4db : DB :=
  { events := [{ freeEvent1 with currentSeats := 1 }]
    registrations := [
      { id := 5, eventId := 1, userId := 100, status := .confirmed,
        paymentStatus := none, stripeSessionId := none, registeredAt := 0,
        confirmedAt := some 0, cancelledAt := none, cancelReason := none }]
    waitlist := [
      { id := 6, eventId := 1, userId := 101, email := "", position := 1,
        status := .waiting, offeredAt := none, expiresAt := none,
        respondedAt := none }]
    nextId := 20 }

/-- The confirmed registration row of `c4db`. -/
def c4reg : Registration :=
  { id := 5, eventId := 1, userId := 100, status := .confirmed,
    paymentStatus := none, stripeSessionId := none, registeredAt := 0,
    confirmedAt := some 0, cancelledAt := none, cancelReason := none }

/-- An offer made at time 0 with deadline 48. -/
def c6offer : WaitlistEntry :=
  { id := 7, eventId := 1, userId := 101, email := "", position := 1,
    status := .offered, offeredAt := some 0, expiresAt := some 48,
    respondedAt := none }

/-- The entry waiting behind the offer, at position 2. -/
def c6wait : WaitlistEntry :=
  { id := 8, eventId := 1, userId := 102, email := "", position := 2,
    status := .waiting, offeredAt := none, expiresAt := none,
    respondedAt := none }

/-- Store with the offer of `c6offer` (stale at any time past 48) and
the waiting entry `c6wait`, the seat being free. -/
def c6db : DB :=
  { events := [freeEvent1], registrations := [],
    waitlist := [c6offer, c6wait], nextId := 20 }

/-- Decline trace on the free one-seat offering: subject 100 takes the
seat, 101 and 102 join the waitlist (positions 1 and 2), 100 cancels
(101 is offered the seat), 101 declines (102 is offered the seat while
keeping position 2). -/
def c7Acts : List Act :=
  [.register 100 1 0 (.ok "u"), .register 101 1 0 (.ok "u"),
   .register 102 1 0 (.ok "u"), .cancelRegistration 100 1 none 1,
   .declineOffer 101 11 2]

/-- The store after the decline trace: the only live entry sits at
position 2, so the live positions are not `{1}`. -/
def c7Final : DB := runTrace freeInit c7Acts

/-- Store with a fresh offer (not yet expired at time 10) on the paid
one-seat offering, for the acceptance/checkout comparison. -/
def c9db : DB :=
  { events := [paidEvent1]
    registrations := []
    waitlist := [
      { id := 7, eventId := 1, userId := 101, email := "", position := 1,
        status := .offered, offeredAt := some 0, expiresAt := some 48,
        respondedAt := none }]
    nextId := 30 }

/-- Store for the matching plain `register` call of subject 101 on the
paid offering, with the same id counter as `c9db`. -/
def c9regdb : DB :=
  { events := [paidEvent1], registrations := [], waitlist := [], nextId := 30 }

/-- The pending registration row both `acceptOffer` on `c9db` and
`register` on `c9regdb` create. -/
def c9reg : Registration :=
  { id := 30, eventId := 1, userId := 101, status := .pending,
    paymentStatus := some .pending, stripeSessionId := none, registeredAt := 10,
    confirmedAt := none, cancelledAt := none, cancelReason := none }

/-- The result pair of accepting the offer of `c9db`. -/
def c9accP : DB × AcceptResult :=
  match acceptOffer c9db 101 7 10 with
  | .ok p => p
  | .error _ => (c9db, .pending c9reg)

/-- The result pair of the matching plain `register` call on `c9regdb`. -/
def c9regP : DB × RegResult :=
  match register c9regdb 101 1 10 (.ok "https://pay") with
  | .ok p => p
  | .error _ => (c9regdb, .registration c9reg)

/-- A completed (attended) registration row for (offering 1, subject
100). -/
def c10reg : Registration :=
  { id := 5, eventId := 1, userId := 100, status := .completed,
    paymentStatus := none, stripeSessionId := none, registeredAt := 0,
    confirmedAt := some 0, cancelledAt := none, cancelReason := none }

/-- Store whose only registration row is the completed `c10reg`. -/
def c10db : DB :=
  { events := [freeEvent1], registrations := [c10reg], waitlist := [],
    nextId := 20 }

/-- Store with a pending paid registration awaiting its webhook. -/
def w2db : DB :=
  { events := [paidEvent1]
    registrations := [
      { id := 5, eventId := 1, userId := 100, status := .pending,
        paymentStatus := some .pending, stripeSessionId := none,
        registeredAt := 0, confirmedAt := none, cancelledAt := none,
        cancelReason := none }]
    waitlist := []
    nextId := 20 }

/-- The store after the first successful webhook delivery on `w2db`. -/
def w2db1 : DB :=
  match confirmPayment w2db 5 "cs" 3 with
  | .ok db' => db'
  | .error _ => w2db

/-! ## Lemmas -/

/-! ### Generic list lemmas -/

theorem find?_map_comm {α : Type} (p : α → Bool) (g : α → α)
    (hg : ∀ x, p (g x) = p x) :
    ∀ l : List α, (l.map g).find? p = (l.find? p).map g := by
  intro l
  induction l with
  | nil => rfl
  | cons x xs ih =>
      simp only [List.map_cons]
      cases hp : p x with
      | true =>
          rw [List.find?_cons_of_pos _ (by rw [hg]; exact hp),
              List.find?_cons_of_pos _ hp]
          rfl
      | false =>
          rw [List.find?_cons_of_neg _ (by rw [hg, hp]; simp),
              List.find?_cons_of_neg _ (by rw [hp]; simp), ih]

/-- In a list whose keys are distinct, `find?` by the key of a member
returns that member. -/
theorem find?_key_of_mem_nodup {α : Type} (key : α → Nat) {l : List α}
    (hnd : (l.map key).Nodup) {a : α} (hmem : a ∈ l) :
    l.find? (fun x => key x == key a) = some a := by
  induction l with
  | nil => cases hmem
  | cons x xs ih =>
      simp only [List.map_cons, List.nodup_cons] at hnd
      rcases List.mem_cons.mp hmem with h | h
      · subst h
        exact List.find?_cons_of_pos _ (by simp)
      · have hne : key x ≠ key a := by
          intro hk
          exact hnd.1 (hk ▸ List.mem_map_of_mem key h)
        rw [List.find?_cons_of_neg _ (by simpa using hne)]
        exact ih hnd.2 h

/-! ### The tables untouched by each primitive -/

theorem setSeats_registrations (db : DB) (e : Nat) (f : Int → Int) :
    (setSeats db e f).registrations = db.registrations := rfl

theorem setSeats_waitlist (db : DB) (e : Nat) (f : Int → Int) :
    (setSeats db e f).waitlist = db.waitlist := rfl

theorem setSeats_nextId (db : DB) (e : Nat) (f : Int → Int) :
    (setSeats db e f).nextId = db.nextId := rfl

theorem seatTrigger_registrations (db : DB) (op : TgOp) :
    (update_event_seat_count db op).registrations = db.registrations := by
  cases op <;> simp only [update_event_seat_count] <;> split_ifs <;> rfl

theorem seatTrigger_waitlist (db : DB) (op : TgOp) :
    (update_event_seat_count db op).waitlist = db.waitlist := by
  cases op <;> simp only [update_event_seat_count] <;> split_ifs <;> rfl

theorem updateWaitlist_events (db : DB) (wid : Nat) (f : WaitlistEntry → WaitlistEntry) :
    (updateWaitlist db wid f).events = db.events := rfl

theorem updateWaitlist_registrations (db : DB) (wid : Nat)
    (f : WaitlistEntry → WaitlistEntry) :
    (updateWaitlist db wid f).registrations = db.registrations := rfl

theorem offerSpot_events (db : DB) (entry : WaitlistEntry) (now : Nat) :
    (offerSpot db entry now).events = db.events := rfl

theorem offerSpot_registrations (db : DB) (entry : WaitlistEntry) (now : Nat) :
    (offerSpot db entry now).registrations = db.registrations := rfl

theorem processWaitlist_events (db : DB) (e now : Nat) :
    (processWaitlist db e now).events = db.events := by
  unfold processWaitlist
  cases findEvent db e with
  | none => rfl
  | some event =>
      simp only
      split
      · rfl
      · cases nextInLine db e with
        | none => rfl
        | some entry => rfl

theorem processWaitlist_registrations (db : DB) (e now : Nat) :
    (processWaitlist db e now).registrations = db.registrations := by
  unfold processWaitlist
  cases findEvent db e with
  | none => rfl
  | some event =>
      simp only
      split
      · rfl
      · cases nextInLine db e with
        | none => rfl
        | some entry => rfl

/-- A fold whose step keeps a projection of the store fixed keeps it
fixed overall. -/
theorem foldl_proj_eq {α β : Type} (proj : DB → β) (g : DB → α → DB)
    (hg : ∀ db a, proj (g db a) = proj db) :
    ∀ (l : List α) (db : DB), proj (l.foldl g db) = proj db := by
  intro l
  induction l with
  | nil => intro db; rfl
  | cons x xs ih => intro db; rw [List.foldl_cons, ih, hg]

theorem reorderWaitlistPositions_events (db : DB) (e : Nat) :
    (reorderWaitlistPositions db e).events = db.events := by
  unfold reorderWaitlistPositions
  exact foldl_proj_eq DB.events
    (fun acc (iw : Nat × WaitlistEntry) =>
      updateWaitlist acc iw.2.id fun w => { w with position := iw.1 + 1 })
    (fun db a => rfl) _ db

theorem reorderWaitlistPositions_registrations (db : DB) (e : Nat) :
    (reorderWaitlistPositions db e).registrations = db.registrations := by
  unfold reorderWaitlistPositions
  exact foldl_proj_eq DB.registrations
    (fun acc (iw : Nat × WaitlistEntry) =>
      updateWaitlist acc iw.2.id fun w => { w with position := iw.1 + 1 })
    (fun db a => rfl) _ db

theorem expireOneOffer_events (db : DB) (offer : WaitlistEntry) (now : Nat) :
    (expireOneOffer db offer now).events = db.events := by
  unfold expireOneOffer
  rw [processWaitlist_events, reorderWaitlistPositions_events, updateWaitlist_events]

theorem expireOneOffer_registrations (db : DB) (offer : WaitlistEntry) (now : Nat) :
    (expireOneOffer db offer now).registrations = db.registrations := by
  unfold expireOneOffer
  rw [processWaitlist_registrations, reorderWaitlistPositions_registrations,
    updateWaitlist_registrations]

theorem processExpiredOffers_events (db : DB) (now : Nat) :
    (processExpiredOffers db now).events = db.events := by
  unfold processExpiredOffers
  exact foldl_proj_eq DB.events _ (fun db a => expireOneOffer_events db a now) _ db

/-! ### Seat-bound lemmas about `setSeats` -/

theorem SeatLB_of_events_eq {db db' : DB} (he : db'.events = db.events)
    (h : SeatLB db) : SeatLB db' := by
  unfold SeatLB at *
  rw [he]
  exact h

theorem SeatUB_of_events_eq {db db' : DB} (he : db'.events = db.events)
    (h : SeatUB db) : SeatUB db' := by
  unfold SeatUB at *
  rw [he]
  exact h

theorem SeatLB_setSeats {db : DB} {e : Nat} {f : Int → Int}
    (h : SeatLB db) (hf : ∀ c, 0 ≤ c → 0 ≤ f c) : SeatLB (setSeats db e f) := by
  intro ev hev
  obtain ⟨ev₀, hmem, hg⟩ := List.mem_map.mp hev
  by_cases hc : (ev₀.id == e) = true
  · rw [if_pos hc] at hg
    subst hg
    exact hf _ (h ev₀ hmem)
  · rw [if_neg hc] at hg
    subst hg
    exact h ev₀ hmem

theorem SeatUB_setSeats_dec {db : DB} {e : Nat} (h : SeatUB db) :
    SeatUB (setSeats db e (fun c => max (c - 1) 0)) := by
  intro ev hev
  obtain ⟨ev₀, hmem, hg⟩ := List.mem_map.mp hev
  by_cases hc : (ev₀.id == e) = true
  · rw [if_pos hc] at hg
    subst hg
    have hub := h ev₀ hmem
    simp only [max_le_iff]
    omega
  · rw [if_neg hc] at hg
    subst hg
    exact h ev₀ hmem

theorem SeatUB_setSeats_inc {db : DB} {e : Nat} (h : SeatUB db)
    (hlt : ∀ ev ∈ db.events, ev.id = e → ev.currentSeats < (ev.maxSeats : Int)) :
    SeatUB (setSeats db e (· + 1)) := by
  intro ev hev
  obtain ⟨ev₀, hmem, hg⟩ := List.mem_map.mp hev
  by_cases hc : (ev₀.id == e) = true
  · rw [if_pos hc] at hg
    subst hg
    have := hlt ev₀ hmem (by simpa using hc)
    simpa using this
  · rw [if_neg hc] at hg
    subst hg
    exact h ev₀ hmem

/-! ### Lookup lemmas -/

/-- In a table whose keys are distinct, every row sharing the key of the
found row is the found row. -/
theorem eq_of_find?_key_nodup {α : Type} (key : α → Nat) {l : List α}
    (hnd : (l.map key).Nodup) {e : Nat} {a : α}
    (hfind : l.find? (fun x => key x == e) = some a) :
    ∀ x ∈ l, key x = e → x = a := by
  have hmem := List.mem_of_find?_eq_some hfind
  have hpa : key a = e := by simpa using List.find?_some hfind
  intro x hx hkx
  exact List.inj_on_of_nodup_map hnd hx hmem (by rw [hkx, hpa])

/-- When the found offering has a free seat and offering ids are
distinct, every row with that id has a free seat. -/
theorem free_seat_all_of_findEvent {db : DB} {e : Nat} {ev : Event}
    (hnd : EvIdsNodup db) (hfind : findEvent db e = some ev)
    (hlt : ev.currentSeats < (ev.maxSeats : Int)) :
    ∀ ev' ∈ db.events, ev'.id = e → ev'.currentSeats < (ev'.maxSeats : Int) := by
  intro ev' hmem hid
  rw [eq_of_find?_key_nodup Event.id hnd hfind ev' hmem hid]
  exact hlt

theorem findEvent_setSeats (db : DB) (e : Nat) (f : Int → Int) :
    findEvent (setSeats db e f) e =
      (findEvent db e).map (fun ev => { ev with currentSeats := f ev.currentSeats }) := by
  unfold findEvent setSeats
  rw [find?_map_comm]
  · cases hfind : db.events.find? (fun ev => ev.id == e) with
    | none => rfl
    | some ev =>
        have hp := List.find?_some hfind
        simp only [Option.map_some']
        rw [if_pos hp]
  · intro x
    by_cases hc : (x.id == e) = true
    · rw [if_pos hc]
    · rw [if_neg hc]

/-! ### What each operation does to the `events` table -/

theorem insertWaitlistEntry_ok {db : DB} {mk : Nat → WaitlistEntry} {q : DB × WaitlistEntry}
    (hok : insertWaitlistEntry db mk = .ok q) :
    q.1.events = db.events ∧ q.1.registrations = db.registrations := by
  simp only [insertWaitlistEntry] at hok
  split at hok
  · cases hok
  · injection hok with h
    subst h
    exact ⟨rfl, rfl⟩

theorem insertRegistration_ok {db : DB} {mk : Nat → Registration} {q : DB × Registration}
    (hok : insertRegistration db mk = .ok q) :
    q.2 = mk db.nextId ∧
    q.1 = update_event_seat_count
            { db with registrations := db.registrations ++ [mk db.nextId],
                      nextId := db.nextId + 1 }
            (.insertRow (mk db.nextId)) := by
  simp only [insertRegistration] at hok
  split at hok
  · cases hok
  · injection hok with h
    subst h
    exact ⟨rfl, rfl⟩

theorem addToWaitlist_ok_events {db : DB} {u e : Nat} {p : DB × RegResult}
    (hok : addToWaitlist db u e = .ok p) :
    p.1.events = db.events ∧ p.1.registrations = db.registrations := by
  unfold addToWaitlist at hok
  cases hins : insertWaitlistEntry db (fun id =>
      { id := id, eventId := e, userId := u, email := "", position := 0,
        status := .waiting, offeredAt := none, expiresAt := none,
        respondedAt := none }) with
  | error err => rw [hins] at hok; cases hok
  | ok q =>
      obtain ⟨db', entry⟩ := q
      rw [hins] at hok
      injection hok with h
      subst h
      exact insertWaitlistEntry_ok hins

theorem createConfirmedRegistration_ok_events {db : DB} {u e now : Nat}
    {p : DB × RegResult} (hok : createConfirmedRegistration db u e now = .ok p) :
    p.1.events = (setSeats db e (· + 1)).events := by
  unfold createConfirmedRegistration at hok
  cases hins : insertRegistration db (fun id =>
      { id := id, eventId := e, userId := u, status := .confirmed,
        paymentStatus := none, stripeSessionId := none, registeredAt := now,
        confirmedAt := some now, cancelledAt := none, cancelReason := none }) with
  | error err => rw [hins] at hok; cases hok
  | ok q =>
      obtain ⟨db', reg⟩ := q
      rw [hins] at hok
      injection hok with h
      subst h
      have hd := (insertRegistration_ok hins).2
      simp only at hd
      rw [hd]
      simp [update_event_seat_count, setSeats]

theorem createPendingRegistration_ok_events {db : DB} {u e now : Nat}
    {chk : Except String String} {p : DB × RegResult}
    (hok : createPendingRegistration db u e now chk = .ok p) :
    p.1.events = db.events := by
  unfold createPendingRegistration at hok
  cases hins : insertRegistration db (fun id =>
      { id := id, eventId := e, userId := u, status := .pending,
        paymentStatus := some .pending, stripeSessionId := none, registeredAt := now,
        confirmedAt := none, cancelledAt := none, cancelReason := none }) with
  | error err => rw [hins] at hok; cases hok
  | ok q =>
      obtain ⟨db', reg⟩ := q
      rw [hins] at hok
      cases chk with
      | error msg => cases hok
      | ok url =>
          injection hok with h
          subst h
          have hd := (insertRegistration_ok hins).2
          simp only at hd
          rw [hd]
          simp [update_event_seat_count]

/-- Inversion of a successful `register` call: the guards all passed and
one of the three branches produced the result. -/
theorem register_ok_cases {db : DB} {u e now : Nat} {chk : Except String String}
    {p : DB × RegResult} (hok : register db u e now chk = .ok p) :
    ∃ ev, findEvent db e = some ev ∧ ev.status = .published ∧
      deadlinePassed ev now = false ∧
      blockedByRegistration db e u = false ∧ blockedByWaitlist db e u = false ∧
      (((ev.maxSeats : Int) ≤ ev.currentSeats ∧ addToWaitlist db u e = .ok p)
       ∨ (ev.currentSeats < (ev.maxSeats : Int) ∧ ev.isFree = true ∧
            createConfirmedRegistration db u e now = .ok p)
       ∨ (ev.currentSeats < (ev.maxSeats : Int) ∧ ev.isFree = false ∧
            createPendingRegistration db u e now chk = .ok p)) := by
  unfold register at hok
  cases hfe : findEvent db e with
  | none => rw [hfe] at hok; cases hok
  | some event =>
      rw [hfe] at hok
      dsimp only at hok
      refine ⟨event, rfl, ?_⟩
      by_cases h1 : event.status ≠ .published
      · rw [if_pos h1] at hok; cases hok
      rw [if_neg h1] at hok
      refine ⟨not_not.mp h1, ?_⟩
      by_cases h2 : deadlinePassed event now = true
      · rw [if_pos h2] at hok; cases hok
      rw [if_neg h2] at hok
      refine ⟨Bool.not_eq_true _ ▸ h2, ?_⟩
      by_cases h3 : blockedByRegistration db e u = true
      · rw [if_pos h3] at hok; cases hok
      rw [if_neg h3] at hok
      refine ⟨Bool.not_eq_true _ ▸ h3, ?_⟩
      by_cases h4 : blockedByWaitlist db e u = true
      · rw [if_pos h4] at hok; cases hok
      rw [if_neg h4] at hok
      refine ⟨Bool.not_eq_true _ ▸ h4, ?_⟩
      by_cases h5 : (event.maxSeats : Int) ≤ event.currentSeats
      · rw [if_pos h5] at hok
        exact Or.inl ⟨h5, hok⟩
      rw [if_neg h5] at hok
      by_cases h6 : event.isFree = true
      · rw [if_pos h6] at hok
        exact Or.inr (Or.inl ⟨lt_of_not_le h5, h6, hok⟩)
      · rw [if_neg h6] at hok
        exact Or.inr (Or.inr ⟨lt_of_not_le h5, Bool.not_eq_true _ ▸ h6, hok⟩)

theorem register_ok_events {db : DB} {u e now : Nat} {chk : Except String String}
    {p : DB × RegResult} (hok : register db u e now chk = .ok p) :
    ∃ ev, findEvent db e = some ev ∧
      (p.1.events = db.events ∨
        (ev.currentSeats < (ev.maxSeats : Int) ∧
          p.1.events = (setSeats db e (· + 1)).events)) := by
  obtain ⟨ev, hfe, _, _, _, _, hbr⟩ := register_ok_cases hok
  refine ⟨ev, hfe, ?_⟩
  rcases hbr with ⟨_, hw⟩ | ⟨hlt, _, hc⟩ | ⟨hlt, _, hc⟩
  · exact Or.inl (addToWaitlist_ok_events hw).1
  · exact Or.inr ⟨hlt, createConfirmedRegistration_ok_events hc⟩
  · exact Or.inl (createPendingRegistration_ok_events hc)

/-- Inversion of a successful `confirmPayment` call. -/
theorem confirmPayment_ok_cases {db : DB} {rid : Nat} {sid : String} {now : Nat}
    {db' : DB} (hok : confirmPayment db rid sid now = .ok db') :
    ∃ r, findRegById db rid = some r ∧ r.status = .pending ∧
      db' = updateRegistration db rid (fun x =>
        { x with status := .confirmed, paymentStatus := some .completed,
                 stripeSessionId := some sid, confirmedAt := some now }) := by
  unfold confirmPayment at hok
  cases hfr : findRegById db rid with
  | none => rw [hfr] at hok; cases hok
  | some r =>
      rw [hfr] at hok
      dsimp only at hok
      by_cases h : r.status ≠ .pending
      · rw [if_pos h] at hok; cases hok
      rw [if_neg h] at hok
      injection hok with h2
      exact ⟨r, rfl, not_not.mp h, h2.symm⟩

theorem confirmPayment_ok_events {db : DB} {rid : Nat} {sid : String} {now : Nat}
    {db' : DB} (hok : confirmPayment db rid sid now = .ok db') :
    ∃ r, findRegById db rid = some r ∧ r.status = .pending ∧
      db'.events = (setSeats db r.eventId (· + 1)).events := by
  obtain ⟨r, hfr, hp, rfl⟩ := confirmPayment_ok_cases hok
  refine ⟨r, hfr, hp, ?_⟩
  unfold updateRegistration
  rw [hfr]
  dsimp only
  simp only [update_event_seat_count]
  split
  · rfl
  · next hcond =>
      exact (hcond (And.intro (by rw [hp]; exact fun hc => nomatch hc) (by simp))).elim

/-- Inversion of a successful `cancelRegistration` call. -/
theorem cancelRegistration_ok_cases {db : DB} {u e : Nat} {reason : Option String}
    {now : Nat} {db' : DB} (hok : cancelRegistration db u e reason now = .ok db') :
    ∃ r, findRegByEventUser db e u = some r ∧
      (r.status = .pending ∨ r.status = .confirmed) ∧
      ((r.status = .confirmed ∧
          db' = processWaitlist
                  (updateRegistration db r.id fun x =>
                    { x with status := .cancelled, cancelledAt := some now,
                             cancelReason := reason })
                  e now)
       ∨ (r.status = .pending ∧
          db' = updateRegistration db r.id fun x =>
                  { x with status := .cancelled, cancelledAt := some now,
                           cancelReason := reason })) := by
  unfold cancelRegistration at hok
  cases hfr : findRegByEventUser db e u with
  | none => rw [hfr] at hok; cases hok
  | some r =>
      rw [hfr] at hok
      dsimp only at hok
      by_cases h : ¬(r.status = .pending ∨ r.status = .confirmed)
      · rw [if_pos h] at hok; cases hok
      rw [if_neg h] at hok
      have hst := not_not.mp h
      refine ⟨r, rfl, hst, ?_⟩
      by_cases h2 : r.status = .confirmed
      · rw [if_pos h2] at hok
        injection hok with h3
        exact Or.inl ⟨h2, h3.symm⟩
      · rw [if_neg h2] at hok
        injection hok with h3
        exact Or.inr ⟨hst.resolve_right h2, h3.symm⟩

theorem cancelRegistration_ok_events {db : DB} {u e : Nat} {reason : Option String}
    {now : Nat} {db' : DB} (hok : cancelRegistration db u e reason now = .ok db') :
    db'.events = db.events ∨
      ∃ eid, db'.events = (setSeats db eid (fun c => max (c - 1) 0)).events := by
  obtain ⟨r, hfr, hst, hbr⟩ := cancelRegistration_ok_cases hok
  have hupd : ∀ db₂ : DB,
      db₂ = (updateRegistration db r.id fun x =>
        { x with status := .cancelled, cancelledAt := some now,
                 cancelReason := reason }) →
      db₂.events = db.events ∨
        ∃ eid, db₂.events = (setSeats db eid (fun c => max (c - 1) 0)).events := by
    intro db₂ hdb₂
    subst hdb₂
    unfold updateRegistration
    cases hold : findRegById db r.id with
    | none => exact Or.inl rfl
    | some old =>
        dsimp only
        by_cases hc : old.status = .confirmed
        · refine Or.inr ⟨old.eventId, ?_⟩
          simp [update_event_seat_count, hc, setSeats]
        · refine Or.inl ?_
          simp [update_event_seat_count, hc]
  rcases hbr with ⟨_, rfl⟩ | ⟨_, rfl⟩
  · rw [processWaitlist_events]
    exact hupd _ rfl
  · exact hupd _ rfl

/-- Inversion of a successful `acceptOffer` call. -/
theorem acceptOffer_ok_cases {db : DB} {u wid now : Nat} {p : DB × AcceptResult}
    (hok : acceptOffer db u wid now = .ok p) :
    ∃ entry ev, findWaitById db wid = some entry ∧ entry.userId = u ∧
      entry.status = .offered ∧
      (match entry.expiresAt with
       | some x => decide (x < now)
       | none => false) = false ∧
      findEvent db entry.eventId = some ev ∧
      ev.currentSeats < (ev.maxSeats : Int) ∧
      ((ev.isFree = true ∧ ∃ q,
          insertRegistration
            (updateWaitlist db entry.id fun w =>
              { w with status := .accepted, respondedAt := some now })
            (fun id =>
              { id := id, eventId := entry.eventId, userId := entry.userId,
                status := .confirmed, paymentStatus := none,
                stripeSessionId := none, registeredAt := now,
                confirmedAt := some now, cancelledAt := none,
                cancelReason := none }) = .ok q ∧
          p = (q.1, .confirmed q.2))
       ∨ (ev.isFree = false ∧ ∃ q,
          insertRegistration
            (updateWaitlist db entry.id fun w =>
              { w with status := .accepted, respondedAt := some now })
            (fun id =>
              { id := id, eventId := entry.eventId, userId := entry.userId,
                status := .pending, paymentStatus := some .pending,
                stripeSessionId := none, registeredAt := now,
                confirmedAt := none, cancelledAt := none,
                cancelReason := none }) = .ok q ∧
          p = (q.1, .pending q.2))) := by
  unfold acceptOffer at hok
  cases hfw : findWaitById db wid with
  | none => rw [hfw] at hok; cases hok
  | some entry =>
      rw [hfw] at hok
      dsimp only at hok
      by_cases h1 : entry.userId ≠ u
      · rw [if_pos h1] at hok; cases hok
      rw [if_neg h1] at hok
      by_cases h2 : entry.status ≠ .offered
      · rw [if_pos h2] at hok; cases hok
      rw [if_neg h2] at hok
      by_cases h3 : (match entry.expiresAt with
                     | some x => decide (x < now)
                     | none => false) = true
      · rw [if_pos h3] at hok; cases hok
      rw [if_neg h3] at hok
      cases hfe : findEvent db entry.eventId with
      | none => rw [hfe] at hok; cases hok
      | some ev =>
          rw [hfe] at hok
          dsimp only at hok
          by_cases h4 : (ev.maxSeats : Int) ≤ ev.currentSeats
          · rw [if_pos h4] at hok; cases hok
          rw [if_neg h4] at hok
          refine ⟨entry, ev, ?_, not_not.mp h1, not_not.mp h2,
            Bool.not_eq_true _ ▸ h3, ?_, lt_of_not_le h4, ?_⟩
          · rfl
          · exact hfe
          by_cases h5 : ev.isFree = true
          · rw [if_pos h5] at hok
            cases hins : insertRegistration
                (updateWaitlist db entry.id fun w =>
                  { w with status := .accepted, respondedAt := some now })
                (fun id =>
                  { id := id, eventId := entry.eventId, userId := entry.userId,
                    status := .confirmed, paymentStatus := none,
                    stripeSessionId := none, registeredAt := now,
                    confirmedAt := some now, cancelledAt := none,
                    cancelReason := none }) with
            | error err => rw [hins] at hok; cases hok
            | ok q =>
                obtain ⟨db₂, reg⟩ := q
                rw [hins] at hok
                injection hok with h6
                exact Or.inl ⟨h5, ⟨db₂, reg⟩, rfl, h6.symm⟩
          · rw [if_neg h5] at hok
            cases hins : insertRegistration
                (updateWaitlist db entry.id fun w =>
                  { w with status := .accepted, respondedAt := some now })
                (fun id =>
                  { id := id, eventId := entry.eventId, userId := entry.userId,
                    status := .pending, paymentStatus := some .pending,
                    stripeSessionId := none, registeredAt := now,
                    confirmedAt := none, cancelledAt := none,
                    cancelReason := none }) with
            | error err => rw [hins] at hok; cases hok
            | ok q =>
                obtain ⟨db₂, reg⟩ := q
                rw [hins] at hok
                injection hok with h6
                exact Or.inr ⟨Bool.not_eq_true _ ▸ h5, ⟨db₂, reg⟩, rfl, h6.symm⟩

theorem acceptOffer_ok_events {db : DB} {u wid now : Nat} {p : DB × AcceptResult}
    (hok : acceptOffer db u wid now = .ok p) :
    p.1.events = db.events ∨
      ∃ eid ev, findEvent db eid = some ev ∧
        ev.currentSeats < (ev.maxSeats : Int) ∧
        p.1.events = (setSeats db eid (· + 1)).events := by
  obtain ⟨entry, ev, _, _, _, _, hfe, hlt, hbr⟩ := acceptOffer_ok_cases hok
  rcases hbr with ⟨_, q, hins, hp⟩ | ⟨_, q, hins, hp⟩
  · refine Or.inr ⟨entry.eventId, ev, hfe, hlt, ?_⟩
    have hd := (insertRegistration_ok hins).2
    rw [hp]
    dsimp only
    rw [hd]
    simp [update_event_seat_count, setSeats, updateWaitlist]
  · refine Or.inl ?_
    have hd := (insertRegistration_ok hins).2
    rw [hp]
    dsimp only
    rw [hd]
    simp [update_event_seat_count, updateWaitlist]

/-- Inversion of a successful `declineOffer` call. -/
theorem declineOffer_ok_cases {db : DB} {u wid now : Nat} {db' : DB}
    (hok : declineOffer db u wid now = .ok db') :
    ∃ entry, findWaitById db wid = some entry ∧ entry.userId = u ∧
      entry.status = .offered ∧
      db' = processWaitlist
              (updateWaitlist db entry.id fun w =>
                { w with status := .declined, respondedAt := some now })
              entry.eventId now := by
  unfold declineOffer at hok
  cases hfw : findWaitById db wid with
  | none => rw [hfw] at hok; cases hok
  | some entry =>
      rw [hfw] at hok
      dsimp only at hok
      by_cases h1 : entry.userId ≠ u
      · rw [if_pos h1] at hok; cases hok
      rw [if_neg h1] at hok
      by_cases h2 : entry.status ≠ .offered
      · rw [if_pos h2] at hok; cases hok
      rw [if_neg h2] at hok
      injection hok with h3
      exact ⟨entry, rfl, not_not.mp h1, not_not.mp h2, h3.symm⟩

theorem declineOffer_ok_events {db : DB} {u wid now : Nat} {db' : DB}
    (hok : declineOffer db u wid now = .ok db') : db'.events = db.events := by
  obtain ⟨entry, _, _, _, rfl⟩ := declineOffer_ok_cases hok
  rw [processWaitlist_events, updateWaitlist_events]

/-! ### Preservation of the seat bounds -/

theorem SeatLB_cleanupLoop (now : Nat) :
    ∀ (l : List Registration) (db : DB), SeatLB db → SeatLB (cleanupLoop now db l) := by
  intro l
  induction l with
  | nil => intro db h; exact h
  | cons r rest ih =>
      intro db h
      unfold cleanupLoop
      cases hc : cancelRegistration db r.userId r.eventId
          (some "Payment timeout - auto cancelled") now with
      | error err => exact h
      | ok db' =>
          apply ih
          rcases cancelRegistration_ok_events hc with he | ⟨eid, he⟩
          · exact SeatLB_of_events_eq he h
          · exact SeatLB_of_events_eq he
              (SeatLB_setSeats h (fun c _ => le_max_right _ _))

theorem SeatUB_cleanupLoop (now : Nat) :
    ∀ (l : List Registration) (db : DB), SeatUB db → SeatUB (cleanupLoop now db l) := by
  intro l
  induction l with
  | nil => intro db h; exact h
  | cons r rest ih =>
      intro db h
      unfold cleanupLoop
      cases hc : cancelRegistration db r.userId r.eventId
          (some "Payment timeout - auto cancelled") now with
      | error err => exact h
      | ok db' =>
          apply ih
          rcases cancelRegistration_ok_events hc with he | ⟨eid, he⟩
          · exact SeatUB_of_events_eq he h
          · exact SeatUB_of_events_eq he (SeatUB_setSeats_dec h)

/-- Every operation keeps every confirmed-seat count non-negative. -/
theorem SeatLB_runAct (db : DB) (a : Act) (h : SeatLB db) : SeatLB (runAct db a) := by
  cases a with
  | register u e now chk =>
      simp only [runAct]
      cases hr : register db u e now chk with
      | error err => exact h
      | ok p =>
          obtain ⟨ev, hfe, hbr⟩ := register_ok_events hr
          rcases hbr with he | ⟨_, he⟩
          · exact SeatLB_of_events_eq he h
          · exact SeatLB_of_events_eq he (SeatLB_setSeats h (fun c hc => by omega))
  | confirmPayment rid sid now =>
      simp only [runAct]
      cases hr : confirmPayment db rid sid now with
      | error err => exact h
      | ok db' =>
          obtain ⟨r, _, _, he⟩ := confirmPayment_ok_events hr
          exact SeatLB_of_events_eq he (SeatLB_setSeats h (fun c hc => by omega))
  | cancelRegistration u e reason now =>
      simp only [runAct]
      cases hr : cancelRegistration db u e reason now with
      | error err => exact h
      | ok db' =>
          rcases cancelRegistration_ok_events hr with he | ⟨eid, he⟩
          · exact SeatLB_of_events_eq he h
          · exact SeatLB_of_events_eq he
              (SeatLB_setSeats h (fun c _ => le_max_right _ _))
  | acceptOffer u wid now =>
      simp only [runAct]
      cases hr : acceptOffer db u wid now with
      | error err => exact h
      | ok p =>
          rcases acceptOffer_ok_events hr with he | ⟨eid, ev, _, _, he⟩
          · exact SeatLB_of_events_eq he h
          · exact SeatLB_of_events_eq he (SeatLB_setSeats h (fun c hc => by omega))
  | declineOffer u wid now =>
      simp only [runAct]
      cases hr : declineOffer db u wid now with
      | error err => exact h
      | ok db' => exact SeatLB_of_events_eq (declineOffer_ok_events hr) h
  | sweepExpireOffers now =>
      simp only [runAct]
      exact SeatLB_of_events_eq (processExpiredOffers_events db now) h
  | sweepCleanupPending now =>
      simp only [runAct]
      exact SeatLB_cleanupLoop now _ db h

/-- Every operation other than `confirmPayment` keeps every
confirmed-seat count within capacity; `confirmPayment` does so whenever
its target offering still has a free seat. -/
theorem SeatUB_runAct (db : DB) (a : Act) (hnd : EvIdsNodup db) (h : SeatUB db)
    (ha : a.isConfirmPayment = false ∨ ConfirmTargetFree db a) :
    SeatUB (runAct db a) := by
  cases a with
  | register u e now chk =>
      simp only [runAct]
      cases hr : register db u e now chk with
      | error err => exact h
      | ok p =>
          obtain ⟨ev, hfe, hbr⟩ := register_ok_events hr
          rcases hbr with he | ⟨hlt, he⟩
          · exact SeatUB_of_events_eq he h
          · exact SeatUB_of_events_eq he
              (SeatUB_setSeats_inc h (free_seat_all_of_findEvent hnd hfe hlt))
  | confirmPayment rid sid now =>
      rcases ha with hfalse | hfree
      · exact absurd hfalse (by simp [Act.isConfirmPayment])
      simp only [runAct]
      cases hr : confirmPayment db rid sid now with
      | error err => exact h
      | ok db' =>
          obtain ⟨r, hfr, hp, he⟩ := confirmPayment_ok_events hr
          cases hfe : findEvent db r.eventId with
          | none =>
              refine SeatUB_of_events_eq he (SeatUB_setSeats_inc h ?_)
              intro ev' hmem hid
              have hnone := List.find?_eq_none.mp hfe ev' hmem
              exact absurd (by simpa using hid) hnone
          | some ev =>
              exact SeatUB_of_events_eq he
                (SeatUB_setSeats_inc h
                  (free_seat_all_of_findEvent hnd hfe (hfree r hfr ev hfe)))
  | cancelRegistration u e reason now =>
      simp only [runAct]
      cases hr : cancelRegistration db u e reason now with
      | error err => exact h
      | ok db' =>
          rcases cancelRegistration_ok_events hr with he | ⟨eid, he⟩
          · exact SeatUB_of_events_eq he h
          · exact SeatUB_of_events_eq he (SeatUB_setSeats_dec h)
  | acceptOffer u wid now =>
      simp only [runAct]
      cases hr : acceptOffer db u wid now with
      | error err => exact h
      | ok p =>
          rcases acceptOffer_ok_events hr with he | ⟨eid, ev, hfe, hlt, he⟩
          · exact SeatUB_of_events_eq he h
          · exact SeatUB_of_events_eq he
              (SeatUB_setSeats_inc h (free_seat_all_of_findEvent hnd hfe hlt))
  | declineOffer u wid now =>
      simp only [runAct]
      cases hr : declineOffer db u wid now with
      | error err => exact h
      | ok db' => exact SeatUB_of_events_eq (declineOffer_ok_events hr) h
  | sweepExpireOffers now =>
      simp only [runAct]
      exact SeatUB_of_events_eq (processExpiredOffers_events db now) h
  | sweepCleanupPending now =>
      simp only [runAct]
      exact SeatUB_cleanupLoop now _ db h

theorem SeatLB_runTrace (acts : List Act) :
    ∀ db : DB, SeatLB db → SeatLB (runTrace db acts) := by
  induction acts with
  | nil => intro db h; exact h
  | cons a rest ih =>
      intro db h
      unfold runTrace at *
      rw [List.foldl_cons]
      exact ih _ (SeatLB_runAct db a h)

theorem SeatLB_reachable {db : DB} (h : Reachable db) : SeatLB db := by
  obtain ⟨db₀, acts, hinit, rfl⟩ := h
  apply SeatLB_runTrace
  intro ev hmem
  rw [hinit.2.2 ev hmem]

/-! ### Lookups across updates -/

theorem findRegById_congr {db db' : DB}
    (h : db'.registrations = db.registrations) (rid : Nat) :
    findRegById db' rid = findRegById db rid := by
  unfold findRegById
  rw [h]

theorem findRegByEventUser_congr {db db' : DB}
    (h : db'.registrations = db.registrations) (e u : Nat) :
    findRegByEventUser db' e u = findRegByEventUser db e u := by
  unfold findRegByEventUser
  rw [h]

/-- Patching the row with a given id leaves `findRegById` at that id
pointing at the patched row, provided the patch keeps the id. -/
theorem findRegById_updateRegistration (db : DB) (rid : Nat)
    (f : Registration → Registration) (hf : ∀ x, (f x).id = x.id) :
    findRegById (updateRegistration db rid f) rid = (findRegById db rid).map f := by
  have hg : ∀ x : Registration,
      (((if x.id == rid then f x else x) : Registration).id == rid) = (x.id == rid) := by
    intro x
    by_cases hc : (x.id == rid) = true
    · rw [if_pos hc, hf]
    · rw [if_neg hc]
  unfold updateRegistration
  cases hold : findRegById db rid with
  | none => simp [hold]
  | some old =>
      dsimp only
      rw [findRegById_congr (seatTrigger_registrations _ _)]
      unfold findRegById
      dsimp only
      rw [find?_map_comm _ _ hg]
      unfold findRegById at hold
      rw [hold]
      have hbeq : (old.id == rid) = true := by simpa using List.find?_some hold
      simp only [Option.map_some']
      rw [if_pos hbeq]

/-- In a well-formed ledger, the row found by the (offering, subject)
pair is also the row found by its own id. -/
theorem findRegById_of_findRegByEventUser {db : DB} {e u : Nat} {r : Registration}
    (hnd : RegIdsNodup db) (hfr : findRegByEventUser db e u = some r) :
    findRegById db r.id = some r := by
  have hmem := List.mem_of_find?_eq_some hfr
  exact find?_key_of_mem_nodup Registration.id hnd hmem

theorem findEvent_congr {db db' : DB} (h : db'.events = db.events) (e : Nat) :
    findEvent db' e = findEvent db e := by
  unfold findEvent
  rw [h]

/-- The selection fold of `nextInLine`: the result is drawn from the
accumulator or the list and its position is minimal. -/
theorem nextInLine_foldl_spec :
    ∀ (l : List WaitlistEntry) (acc : Option WaitlistEntry) (w : WaitlistEntry),
      l.foldl (fun acc w =>
        match acc with
        | none => some w
        | some b => if w.position < b.position then some w else acc) acc = some w →
      ((w ∈ l ∨ acc = some w)
        ∧ (∀ x ∈ l, w.position ≤ x.position)
        ∧ (∀ b, acc = some b → w.position ≤ b.position)) := by
  intro l
  induction l with
  | nil =>
      intro acc w h
      have h' : acc = some w := h
      refine ⟨Or.inr h', fun x hx => absurd hx (List.not_mem_nil x), fun b hb => ?_⟩
      rw [h'] at hb
      injection hb with hb
      rw [hb]
  | cons x xs ih =>
      intro acc w h
      rw [List.foldl_cons] at h
      cases acc with
      | none =>
          obtain ⟨hm, hall, hacc⟩ := ih (some x) w h
          have hwx : w.position ≤ x.position := hacc x rfl
          refine ⟨?_, ?_, fun b hb => nomatch hb⟩
          · rcases hm with hm | hm
            · exact Or.inl (List.mem_cons_of_mem x hm)
            · injection hm with hm
              exact Or.inl (hm ▸ List.mem_cons_self x xs)
          · intro y hy
            rcases List.mem_cons.mp hy with rfl | hy
            · exact hwx
            · exact hall y hy
      | some b₀ =>
          dsimp only at h
          by_cases hlt : x.position < b₀.position
          · rw [if_pos hlt] at h
            obtain ⟨hm, hall, hacc⟩ := ih (some x) w h
            have hwx : w.position ≤ x.position := hacc x rfl
            refine ⟨?_, ?_, ?_⟩
            · rcases hm with hm | hm
              · exact Or.inl (List.mem_cons_of_mem x hm)
              · injection hm with hm
                exact Or.inl (hm ▸ List.mem_cons_self x xs)
            · intro y hy
              rcases List.mem_cons.mp hy with rfl | hy
              · exact hwx
              · exact hall y hy
            · intro b hb
              injection hb with hb
              exact hb ▸ le_of_lt (lt_of_le_of_lt hwx hlt)
          · rw [if_neg hlt] at h
            obtain ⟨hm, hall, hacc⟩ := ih (some b₀) w h
            have hwb : w.position ≤ b₀.position := hacc b₀ rfl
            refine ⟨?_, ?_, ?_⟩
            · rcases hm with hm | hm
              · exact Or.inl (List.mem_cons_of_mem x hm)
              · exact Or.inr hm
            · intro y hy
              rcases List.mem_cons.mp hy with rfl | hy
              · exact le_trans hwb (le_of_not_lt hlt)
              · exact hall y hy
            · intro b hb
              injection hb with hb
              exact hb ▸ hwb

/-- `nextInLine` returns a waiting entry of the event with the least
position. -/
theorem nextInLine_spec {db : DB} {e : Nat} {w : WaitlistEntry}
    (h : nextInLine db e = some w) :
    w ∈ db.waitlist ∧ w.eventId = e ∧ w.status = .waiting
      ∧ ∀ x ∈ db.waitlist, x.eventId = e → x.status = .waiting →
          w.position ≤ x.position := by
  unfold nextInLine at h
  obtain ⟨hmem, hall, _⟩ := nextInLine_foldl_spec _ none w h
  have hmem' : w ∈ db.waitlist.filter
      (fun x => x.eventId == e && x.status == .waiting) :=
    hmem.resolve_right (fun hc => nomatch hc)
  obtain ⟨hw, hpred⟩ := List.mem_filter.mp hmem'
  have hpe : w.eventId = e ∧ w.status = .waiting := by
    simpa using hpred
  refine ⟨hw, hpe.1, hpe.2, ?_⟩
  intro x hx hxe hxs
  exact hall x (List.mem_filter.mpr ⟨hx, by simp [hxe, hxs]⟩)

/-! ### Position lemmas -/

/-- The running maximum of the `assign_waitlist_position` query
dominates the position of every row matching the filter. -/
theorem foldl_max_spec (eventId : Nat) :
    ∀ (l : List WaitlistEntry) (m : Nat),
      m ≤ l.foldl (fun m w =>
            if w.eventId == eventId &&
                (w.status == WStatus.waiting || w.status == WStatus.offered) then
              max m w.position
            else m) m
      ∧ ∀ w ∈ l,
          (w.eventId == eventId &&
            (w.status == WStatus.waiting || w.status == WStatus.offered)) = true →
          w.position ≤ l.foldl (fun m w =>
            if w.eventId == eventId &&
                (w.status == WStatus.waiting || w.status == WStatus.offered) then
              max m w.position
            else m) m := by
  intro l
  induction l with
  | nil => exact fun m => ⟨le_refl m, fun w hw => absurd hw (List.not_mem_nil w)⟩
  | cons x xs ih =>
      intro m
      rw [List.foldl_cons]
      by_cases hc : (x.eventId == eventId &&
          (x.status == WStatus.waiting || x.status == WStatus.offered)) = true
      · rw [if_pos hc]
        obtain ⟨hm, hall⟩ := ih (max m x.position)
        refine ⟨le_trans (le_max_left _ _) hm, ?_⟩
        intro w hw hp
        rcases List.mem_cons.mp hw with rfl | hw
        · exact le_trans (le_max_right _ _) hm
        · exact hall w hw hp
      · rw [if_neg hc]
        obtain ⟨hm, hall⟩ := ih m
        refine ⟨hm, ?_⟩
        intro w hw hp
        rcases List.mem_cons.mp hw with rfl | hw
        · exact absurd hp hc
        · exact hall w hw hp

/-- Mapping a patch guarded by a predicate leaves any projection the
patch preserves unchanged. -/
theorem map_proj_ite {α β : Type} (p : α → Bool) (f : α → α) (pr : α → β)
    (hf : ∀ x, pr (f x) = pr x) (l : List α) :
    (l.map fun x => if p x then f x else x).map pr = l.map pr := by
  induction l with
  | nil => rfl
  | cons x xs ih =>
      simp only [List.map_cons, ih]
      by_cases hc : p x = true
      · rw [if_pos hc, hf]
      · rw [if_neg hc]

/-- `updateWaitlist` with a patch keeping id and position fixed keeps
every (id, position) pair of the table fixed. -/
theorem idpos_updateWaitlist (db : DB) (wid : Nat)
    (f : WaitlistEntry → WaitlistEntry)
    (hf : ∀ w, ((f w).id, (f w).position) = (w.id, w.position)) :
    (updateWaitlist db wid f).waitlist.map (fun w => (w.id, w.position))
      = db.waitlist.map (fun w => (w.id, w.position)) := by
  unfold updateWaitlist
  exact map_proj_ite _ f _ hf db.waitlist

/-- `processWaitlist` keeps every (id, position) pair of the table
fixed: it only changes status and offer timestamps. -/
theorem idpos_processWaitlist (db : DB) (e now : Nat) :
    (processWaitlist db e now).waitlist.map (fun w => (w.id, w.position))
      = db.waitlist.map (fun w => (w.id, w.position)) := by
  unfold processWaitlist
  cases findEvent db e with
  | none => rfl
  | some event =>
      dsimp only
      split
      · rfl
      · cases nextInLine db e with
        | none => rfl
        | some entry =>
            exact idpos_updateWaitlist db entry.id _ (fun w => rfl)

/-! ## Claims -/

/-- Claim C1, counterexample: the seat-count upper bound is not an
invariant of the reachable states.  On a capacity-1 paid offering, two
subjects register (both rows `PENDING`, no seat held) and then both
payment webhooks confirm; `confirmPayment` performs no capacity check,
so the second confirmation drives `currentSeats` to 2 > 1. -/
theorem C1_counterexample : Reachable c1Final ∧ ¬ SeatUB c1Final :=
  ⟨⟨paidInit, c1Acts, by decide, rfl⟩, by decide⟩

/-- Claim C1, amended: in every reachable state every confirmed-seat
count is non-negative; and, when offering ids are distinct, every
operation except `confirmPayment` preserves the upper bound
`currentSeats ≤ maxSeats`, as does `confirmPayment` whenever the
offering of its target registration still has a free seat — but not
when the offering is already full (see the counterexample). -/
theorem C1_theorem :
    (∀ db, Reachable db → SeatLB db) ∧
    (∀ db a, EvIdsNodup db → SeatUB db →
      (a.isConfirmPayment = false ∨ ConfirmTargetFree db a) →
      SeatUB (runAct db a)) :=
  ⟨fun _ h => SeatLB_reachable h, fun db a hnd h ha => SeatUB_runAct db a hnd h ha⟩

/-- Witness for C1: both parts applied at concrete stores. -/
theorem C1_witness :
    SeatLB c1Final ∧ SeatUB (runAct paidInit (.register 100 1 0 (.ok "url1"))) :=
  ⟨C1_theorem.1 c1Final ⟨paidInit, c1Acts, by decide, rfl⟩,
   C1_theorem.2 paidInit (.register 100 1 0 (.ok "url1"))
     (by decide) (by decide) (Or.inl rfl)⟩

/-- Claim C2: `confirmPayment` fails with the not-found / not-pending
guards on a missing or non-pending row, and a second delivery of the
same success event is rejected by the status guard, leaving the state of
the first delivery unchanged (the seat count is incremented exactly
once) with the registration still confirmed. -/
theorem C2_theorem (db : DB) (rid : Nat) (sid sid' : String) (now now' : Nat) :
    (findRegById db rid = none →
      confirmPayment db rid sid now = .error .registrationNotFound)
    ∧ (∀ r, findRegById db rid = some r → r.status ≠ .pending →
        confirmPayment db rid sid now = .error .registrationNotPending)
    ∧ (∀ db₁, confirmPayment db rid sid now = .ok db₁ →
        confirmPayment db₁ rid sid' now' = .error .registrationNotPending
        ∧ runAct db₁ (.confirmPayment rid sid' now') = db₁
        ∧ ∃ r₁, findRegById db₁ rid = some r₁ ∧ r₁.status = .confirmed) := by
  refine ⟨?_, ?_, ?_⟩
  · intro hnone
    unfold confirmPayment
    rw [hnone]
  · intro r hfr hnp
    unfold confirmPayment
    rw [hfr]
    dsimp only
    rw [if_pos hnp]
  · intro db₁ hok
    obtain ⟨r, hfr, hp, hdb₁⟩ := confirmPayment_ok_cases hok
    have hfind : findRegById db₁ rid =
        some { r with status := .confirmed, paymentStatus := some .completed,
                      stripeSessionId := some sid, confirmedAt := some now } := by
      have hcomm := findRegById_updateRegistration db rid
        (fun x =>
          { x with
            status := .confirmed
            paymentStatus := some .completed
            stripeSessionId := some sid
            confirmedAt := some now })
        (fun x => rfl)
      rw [hdb₁, hcomm, hfr]
      rfl
    have herr : confirmPayment db₁ rid sid' now' = .error .registrationNotPending := by
      unfold confirmPayment
      rw [hfind]
      dsimp only
      rw [if_pos (fun hc => nomatch hc)]
    refine ⟨herr, ?_, ⟨_, hfind, rfl⟩⟩
    simp only [runAct]
    rw [herr]

/-- Witness for C2: on the concrete pending registration of `w2db`, the
first webhook succeeds and the duplicate delivery is a no-op. -/
theorem C2_witness :
    confirmPayment w2db1 5 "cs2" 4 = .error .registrationNotPending
    ∧ runAct w2db1 (.confirmPayment 5 "cs2" 4) = w2db1 :=
  ⟨((C2_theorem w2db 5 "cs" "cs2" 3 4).2.2 w2db1 rfl).1,
   ((C2_theorem w2db 5 "cs" "cs2" 3 4).2.2 w2db1 rfl).2.1⟩

/-- Claim C3 (code defect): on `c3db` the only row for (offering 1,
subject 100) is cancelled, so the application-level duplicate guard of
`register` lets the attempt through — but the insert then hits the
blanket unique index `event_registrations_eventId_userId_key` of the
migration, so the re-registration fails with a unique-constraint
violation instead of succeeding with a fresh outcome. -/
theorem C3_theorem :
    blockedByRegistration c3db 1 100 = false
    ∧ register c3db 100 1 2 (.ok "url") = .error .uniqueViolation :=
  ⟨rfl, rfl⟩

/-- Claim C4: cancelling from `PENDING` or `CONFIRMED` stamps the row
cancelled with timestamp and reason; exactly when the prior status was
`CONFIRMED` the seat count of the offering is decremented (with the
`GREATEST(.., 0)` floor of the trigger) and the waitlist of the offering
is processed inside the same transaction; from `PENDING` the events and
waitlist tables are untouched. -/
theorem C4_theorem (db : DB) (u e : Nat) (reason : Option String) (now : Nat)
    (r : Registration) (hnd : RegIdsNodup db)
    (hfr : findRegByEventUser db e u = some r)
    (hst : r.status = .pending ∨ r.status = .confirmed) :
    ∃ db', cancelRegistration db u e reason now = .ok db'
      ∧ findRegById db' r.id =
          some { r with status := .cancelled, cancelledAt := some now,
                        cancelReason := reason }
      ∧ (r.status = .confirmed →
          db' = processWaitlist
                  (updateRegistration db r.id fun x =>
                    { x with status := .cancelled, cancelledAt := some now,
                             cancelReason := reason })
                  e now
          ∧ findEvent db' r.eventId =
              (findEvent db r.eventId).map
                (fun ev => { ev with currentSeats := max (ev.currentSeats - 1) 0 }))
      ∧ (r.status = .pending →
          db' = updateRegistration db r.id (fun x =>
                  { x with status := .cancelled, cancelledAt := some now,
                           cancelReason := reason })
          ∧ db'.events = db.events ∧ db'.waitlist = db.waitlist) := by
  have hold : findRegById db r.id = some r :=
    findRegById_of_findRegByEventUser hnd hfr
  have hcomm := findRegById_updateRegistration db r.id
    (fun x =>
      { x with
        status := .cancelled
        cancelledAt := some now
        cancelReason := reason })
    (fun x => rfl)
  unfold cancelRegistration
  rw [hfr]
  dsimp only
  rw [if_neg (not_not_intro hst)]
  rcases hst with hpend | hconf
  · rw [if_neg (by rw [hpend]; exact fun hc => nomatch hc)]
    refine ⟨_, rfl, ?_, ?_, ?_⟩
    · rw [hcomm, hold]
      rfl
    · intro hc
      rw [hpend] at hc
      exact absurd hc (by decide)
    · intro _
      refine ⟨rfl, ?_, ?_⟩
      · unfold updateRegistration
        rw [hold]
        dsimp only
        simp [update_event_seat_count, hpend]
      · unfold updateRegistration
        rw [hold]
        dsimp only
        simp [update_event_seat_count, hpend]
  · rw [if_pos hconf]
    refine ⟨_, rfl, ?_, ?_, ?_⟩
    · rw [findRegById_congr (processWaitlist_registrations _ _ _), hcomm, hold]
      rfl
    · intro _
      refine ⟨rfl, ?_⟩
      have hev : (processWaitlist (updateRegistration db r.id fun x =>
          { x with status := .cancelled, cancelledAt := some now,
                   cancelReason := reason }) e now).events =
          (setSeats db r.eventId (fun c => max (c - 1) 0)).events := by
        rw [processWaitlist_events]
        unfold updateRegistration
        rw [hold]
        dsimp only
        simp [update_event_seat_count, hconf, setSeats]
      rw [findEvent_congr hev, findEvent_setSeats]
    · intro hc
      rw [hconf] at hc
      exact absurd hc (by decide)

/-- Witness for C4: cancelling the confirmed registration of `c4db`. -/
theorem C4_witness :
    ∃ db', cancelRegistration c4db 100 1 (some "conflict") 5 = .ok db'
      ∧ findRegById db' 5 =
          some { c4reg with status := .cancelled, cancelledAt := some 5,
                            cancelReason := some "conflict" } := by
  obtain ⟨db', hok, hfind, _, _⟩ :=
    C4_theorem c4db 100 1 (some "conflict") 5 c4reg (by decide) rfl (Or.inr rfl)
  exact ⟨db', hok, hfind⟩

/-- Claim C5: `processWaitlist` (promote-next) is a no-op when the
offering is missing, has no free seat, or has no waiting entry;
otherwise it transitions exactly the minimum-position waiting entry to
`OFFERED` with offered-at `now` and deadline `now + 48` hours, touching
no other row. -/
theorem C5_theorem (db : DB) (e now : Nat) :
    (findEvent db e = none → processWaitlist db e now = db)
    ∧ (∀ ev, findEvent db e = some ev → (ev.maxSeats : Int) ≤ ev.currentSeats →
        processWaitlist db e now = db)
    ∧ (∀ ev, findEvent db e = some ev → ev.currentSeats < (ev.maxSeats : Int) →
        nextInLine db e = none → processWaitlist db e now = db)
    ∧ (∀ ev w, findEvent db e = some ev → ev.currentSeats < (ev.maxSeats : Int) →
        nextInLine db e = some w →
        w.eventId = e ∧ w.status = .waiting
          ∧ (∀ x ∈ db.waitlist, x.eventId = e → x.status = .waiting →
              w.position ≤ x.position)
          ∧ processWaitlist db e now =
              updateWaitlist db w.id fun x =>
                { x with status := .offered, offeredAt := some now,
                         expiresAt := some (now + 48) }) := by
  refine ⟨?_, ?_, ?_, ?_⟩
  · intro hnone
    unfold processWaitlist
    rw [hnone]
  · intro ev hfe hfull
    unfold processWaitlist
    rw [hfe]
    dsimp only
    rw [if_pos hfull]
  · intro ev hfe hfree hnext
    unfold processWaitlist
    rw [hfe]
    dsimp only
    rw [if_neg (not_le.mpr hfree), hnext]
  · intro ev w hfe hfree hnext
    obtain ⟨hmem, heid, hst, hmin⟩ := nextInLine_spec hnext
    refine ⟨heid, hst, hmin, ?_⟩
    unfold processWaitlist
    rw [hfe]
    dsimp only
    rw [if_neg (not_le.mpr hfree), hnext]
    rfl

/-- Witness for C5: with no waiting entry the call is a no-op, and on
`c6db` the minimum-position waiting entry `c6wait` is offered the free
seat with a 48-hour deadline. -/
theorem C5_witness :
    processWaitlist freeInit 1 9 = freeInit
    ∧ processWaitlist c6db 1 9 =
        updateWaitlist c6db 8 (fun x =>
          { x with status := .offered, offeredAt := some 9,
                   expiresAt := some (9 + 48) }) := by
  constructor
  · exact (C5_theorem freeInit 1 9).2.2.1 freeEvent1 rfl (by decide) rfl
  · exact ((C5_theorem c6db 1 9).2.2.2 freeEvent1 c6wait rfl (by decide) rfl).2.2.2

/-- Claim C6, counterexample: accepting the stale offer of `c6db` at
time 100 fails with the expired error but leaves the store unchanged —
the entry is still `OFFERED` (the expiry write is part of the failing
transaction and is rolled back) and the waiting entry behind it is not
promoted. -/
theorem C6_counterexample :
    acceptOffer c6db 101 7 100 = .error .offerExpired
    ∧ runAct c6db (.acceptOffer 101 7 100) = c6db
    ∧ findWaitById c6db 7 = some c6offer ∧ c6offer.status = .offered
    ∧ findWaitById c6db 8 = some c6wait ∧ c6wait.status = .waiting :=
  ⟨rfl, rfl, rfl, rfl, rfl, rfl⟩

/-- Claim C6, amended: `acceptOffer` on an offered entry whose deadline
has passed fails with the offer-expired error, and — since the service
writes the `EXPIRED` transition inside the very transaction it then
aborts by throwing, and calls no promotion in that branch — the
operation leaves the store unchanged: no durable expired transition and
no promotion. -/
theorem C6_theorem (db : DB) (u wid now : Nat) (entry : WaitlistEntry)
    (hfind : findWaitById db wid = some entry)
    (hu : entry.userId = u) (hst : entry.status = .offered)
    (hexp : ∃ x, entry.expiresAt = some x ∧ x < now) :
    acceptOffer db u wid now = .error .offerExpired
    ∧ runAct db (.acceptOffer u wid now) = db := by
  obtain ⟨x, hx, hlt⟩ := hexp
  have herr : acceptOffer db u wid now = .error .offerExpired := by
    unfold acceptOffer
    rw [hfind]
    dsimp only
    rw [if_neg (not_not_intro hu), if_neg (not_not_intro hst)]
    rw [if_pos (by rw [hx]; simpa using hlt)]
  refine ⟨herr, ?_⟩
  simp only [runAct]
  rw [herr]

/-- Witness for C6: the stale offer of `c6db` at time 100. -/
theorem C6_witness :
    acceptOffer c6db 101 7 100 = .error .offerExpired
    ∧ runAct c6db (.acceptOffer 101 7 100) = c6db :=
  C6_theorem c6db 101 7 100 c6offer rfl rfl rfl ⟨48, rfl, by decide⟩

/-- Claim C7, counterexample: the decline trace is reachable and leaves
offering 1 with live positions {2} instead of {1} — `declineOffer` does
not renumber, so the promoted entry keeps position 2. -/
theorem C7_counterexample : Reachable c7Final ∧ ¬ DensePositions c7Final :=
  ⟨⟨freeInit, c7Acts, by decide, rfl⟩, by decide⟩

/-- Claim C7, amended: the position trigger gives every new entry the
position (max live position) + 1, which is at least 1 and strictly above
every live position, so positions are join-ordered at insertion; but
`declineOffer` changes no (id, position) pair at all — the renumbering
that restores density happens only in the expire sweep — so the dense
`{1, …, n}` property is not an invariant of the live positions. -/
theorem C7_theorem :
    (∀ db e, 1 ≤ assign_waitlist_position db e
      ∧ ∀ w ∈ db.waitlist, w.eventId = e → liveW w = true →
          w.position < assign_waitlist_position db e)
    ∧ (∀ db u wid now db', declineOffer db u wid now = .ok db' →
        db'.waitlist.map (fun w => (w.id, w.position))
          = db.waitlist.map (fun w => (w.id, w.position))) := by
  constructor
  · intro db e
    unfold assign_waitlist_position
    constructor
    · omega
    · intro w hmem heid hlive
      have hp : (w.eventId == e &&
          (w.status == WStatus.waiting || w.status == WStatus.offered)) = true := by
        unfold liveW at hlive
        rw [heid]
        simpa using hlive
      have := (foldl_max_spec e db.waitlist 0).2 w hmem hp
      omega
  · intro db u wid now db' hok
    obtain ⟨entry, _, _, _, rfl⟩ := declineOffer_ok_cases hok
    rw [idpos_processWaitlist]
    exact idpos_updateWaitlist db entry.id
      (fun w => { w with status := .declined, respondedAt := some now })
      (fun w => rfl)

/-- Witness for C7: the position assigned on `c6db` exceeds both live
positions, and the decline of the stale offer moves no position. -/
theorem C7_witness :
    1 ≤ assign_waitlist_position c6db 1
    ∧ (runAct c6db (.declineOffer 101 7 2)).waitlist.map (fun w => (w.id, w.position))
        = c6db.waitlist.map (fun w => (w.id, w.position)) := by
  constructor
  · exact ((C7_theorem.1 c6db 1).1)
  · exact C7_theorem.2 c6db 101 7 2 (runAct c6db (.declineOffer 101 7 2)) rfl

/-- Claim C8 (code defect): on the paid one-seat offering with the seat
free, a checkout-creation failure propagates as the raw collaborator
error (no dedicated error constructor exists in the service) and aborts
the transaction, rolling the fresh `PENDING` row back: afterwards there
is still no registration row for the subject, so the subject cannot
"retry checkout without re-registering". -/
theorem C8_theorem :
    register paidInit 100 1 0 (.error "stripe checkout failed")
      = .error (.externalError "stripe checkout failed")
    ∧ runAct paidInit (.register 100 1 0 (.error "stripe checkout failed")) = paidInit
    ∧ findRegByEventUser paidInit 1 100 = none :=
  ⟨rfl, rfl, rfl⟩

/-- The registration row created by the free branch of `register`. -/
theorem createConfirmedRegistration_ok_res {db : DB} {u e now : Nat}
    {p : DB × RegResult} (hok : createConfirmedRegistration db u e now = .ok p) :
    p.2 = .registration
      { id := db.nextId, eventId := e, userId := u, status := .confirmed,
        paymentStatus := none, stripeSessionId := none, registeredAt := now,
        confirmedAt := some now, cancelledAt := none, cancelReason := none } := by
  unfold createConfirmedRegistration at hok
  cases hins : insertRegistration db (fun id =>
      { id := id, eventId := e, userId := u, status := .confirmed,
        paymentStatus := none, stripeSessionId := none, registeredAt := now,
        confirmedAt := some now, cancelledAt := none, cancelReason := none }) with
  | error err => rw [hins] at hok; cases hok
  | ok q =>
      obtain ⟨db', reg⟩ := q
      rw [hins] at hok
      injection hok with h
      subst h
      have hq := (insertRegistration_ok hins).1
      dsimp only at hq ⊢
      rw [hq]

/-- The registration row and checkout URL produced by the paid branch
of `register`. -/
theorem createPendingRegistration_ok_res {db : DB} {u e now : Nat}
    {chk : Except String String} {p : DB × RegResult}
    (hok : createPendingRegistration db u e now chk = .ok p) :
    ∃ url, chk = .ok url ∧
      p.2 = .checkout url
        { id := db.nextId, eventId := e, userId := u, status := .pending,
          paymentStatus := some .pending, stripeSessionId := none,
          registeredAt := now, confirmedAt := none, cancelledAt := none,
          cancelReason := none } := by
  unfold createPendingRegistration at hok
  cases hins : insertRegistration db (fun id =>
      { id := id, eventId := e, userId := u, status := .pending,
        paymentStatus := some .pending, stripeSessionId := none, registeredAt := now,
        confirmedAt := none, cancelledAt := none, cancelReason := none }) with
  | error err => rw [hins] at hok; cases hok
  | ok q =>
      obtain ⟨db', reg⟩ := q
      rw [hins] at hok
      cases chk with
      | error msg => cases hok
      | ok url =>
          injection hok with h
          subst h
          have hq := (insertRegistration_ok hins).1
          dsimp only at hq ⊢
          rw [hq]
          exact ⟨url, rfl, rfl⟩

/-- Claim C9, counterexample: accepting the fresh offer on the paid
offering `c9db` produces the same pending registration row as the plain
`register` call on `c9regdb`, but the accept result is the bare
`pending` outcome with no checkout reference, while the register result
carries the checkout URL. -/
theorem C9_counterexample :
    (∃ db', acceptOffer c9db 101 7 10 = .ok (db', AcceptResult.pending c9reg))
    ∧ AcceptResult.checkoutRef (AcceptResult.pending c9reg) = none
    ∧ (∃ db', register c9regdb 101 1 10 (.ok "https://pay") =
        .ok (db', RegResult.checkout "https://pay" c9reg))
    ∧ RegResult.checkoutRef (RegResult.checkout "https://pay" c9reg) = some "https://pay" :=
  ⟨⟨c9accP.1, rfl⟩, rfl, ⟨c9regP.1, rfl⟩, rfl⟩

/-- Claim C9, amended: for the same subject, offering, time and id
counter, and the same free/paid flag, `acceptOffer` creates exactly the
registration row that the seat-available branches of `register` create:
free gives the identical confirmed row in both; paid gives the identical
pending row in both, but the accept result carries no checkout
reference (its interface has none — checkout creation is left to the
caller), unlike the checkout-required result of `register`. -/
theorem C9_theorem (db : DB) (u wid now : Nat) (db₁ : DB) (res : AcceptResult)
    (hacc : acceptOffer db u wid now = .ok (db₁, res)) :
    ∀ (e : Nat) (db₂ : DB) (ev₂ : Event) (url : String) (db₃ : DB) (res₂ : RegResult),
      (∀ entry, findWaitById db wid = some entry → entry.eventId = e) →
      db₂.nextId = db.nextId →
      findEvent db₂ e = some ev₂ →
      ev₂.currentSeats < (ev₂.maxSeats : Int) →
      (∀ ev₁, findEvent db e = some ev₁ → ev₁.isFree = ev₂.isFree) →
      register db₂ u e now (.ok url) = .ok (db₃, res₂) →
      ((ev₂.isFree = true → ∃ reg, res = .confirmed reg ∧ res₂ = .registration reg)
       ∧ (ev₂.isFree = false → ∃ reg, res = .pending reg ∧ res₂ = .checkout url reg
            ∧ AcceptResult.checkoutRef res = none
            ∧ RegResult.checkoutRef res₂ = some url)) := by
  intro e db₂ ev₂ url db₃ res₂ hsame hnid hfe₂ hlt₂ hfreeEq hreg
  obtain ⟨entry, ev, hfw, huid, _, _, hfe, _, hbr⟩ := acceptOffer_ok_cases hacc
  have he : entry.eventId = e := hsame entry hfw
  have hfree : ev.isFree = ev₂.isFree := hfreeEq ev (he ▸ hfe)
  obtain ⟨ev₂', hfe₂', _, _, _, _, hbrr⟩ := register_ok_cases hreg
  rw [hfe₂] at hfe₂'
  injection hfe₂' with hev₂
  subst hev₂
  rcases hbrr with ⟨hfull, _⟩ | ⟨_, hfr2, hcreg⟩ | ⟨_, hfr2, hcreg⟩
  · exact absurd hfull (not_le.mpr hlt₂)
  · refine ⟨?_, ?_⟩
    · intro hf2
      rcases hbr with ⟨hevfree, q, hins, hp⟩ | ⟨hevfree, q, hins, hp⟩
      · have hq := (insertRegistration_ok hins).1
        have hres2 := createConfirmedRegistration_ok_res hcreg
        dsimp only at hres2
        have hrow : ({ id := db₂.nextId
                       eventId := e
                       userId := u
                       status := RegStatus.confirmed
                       paymentStatus := none
                       stripeSessionId := none
                       registeredAt := now
                       confirmedAt := some now
                       cancelledAt := none
                       cancelReason := none } : Registration) = q.2 := by
          rw [hq, hnid, ← he, ← huid]
          rfl
        refine ⟨q.2, congrArg Prod.snd hp, ?_⟩
        rw [hres2, hrow]
      · have hcontr : ev.isFree = true := hfree.trans hf2
        rw [hevfree] at hcontr
        exact Bool.noConfusion hcontr
    · intro hf2
      rw [hfr2] at hf2
      exact Bool.noConfusion hf2
  · refine ⟨?_, ?_⟩
    · intro hf2
      rw [hfr2] at hf2
      exact Bool.noConfusion hf2
    · intro _
      obtain ⟨url', hurl, hres2⟩ := createPendingRegistration_ok_res hcreg
      injection hurl with hurl
      subst hurl
      dsimp only at hres2
      rcases hbr with ⟨hevfree, q, hins, hp⟩ | ⟨hevfree, q, hins, hp⟩
      · have hcontr : ev.isFree = false := hfree.trans hfr2
        rw [hevfree] at hcontr
        exact Bool.noConfusion hcontr
      · have hq := (insertRegistration_ok hins).1
        have hres : res = .pending q.2 := congrArg Prod.snd hp
        have hrow : ({ id := db₂.nextId
                       eventId := e
                       userId := u
                       status := RegStatus.pending
                       paymentStatus := some PayStatus.pending
                       stripeSessionId := none
                       registeredAt := now
                       confirmedAt := none
                       cancelledAt := none
                       cancelReason := none } : Registration) = q.2 := by
          rw [hq, hnid, ← he, ← huid]
          rfl
        refine ⟨q.2, hres, ?_, ?_, ?_⟩
        · rw [hres2, hrow]
        · rw [hres]
          rfl
        · rw [hres2]
          rfl

/-- Witness for C9: the concrete paid acceptance against the matching
register call. -/
theorem C9_witness :
    ∃ reg, c9accP.2 = .pending reg ∧ c9regP.2 = .checkout "https://pay" reg
      ∧ AcceptResult.checkoutRef c9accP.2 = none
      ∧ RegResult.checkoutRef c9regP.2 = some "https://pay" := by
  have h := C9_theorem c9db 101 7 10 c9accP.1 c9accP.2 rfl 1 c9regdb paidEvent1
    "https://pay" c9regP.1 c9regP.2
    (fun entry he => by injection he with h2; rw [← h2])
    rfl rfl (by decide)
    (fun ev₁ h => by injection h with h2; rw [← h2])
    rfl
  obtain ⟨reg, h1, h2, h3, h4⟩ := h.2 rfl
  exact ⟨reg, h1, h2, h3, h4⟩

/-- Claim C10: with the offering open and not past its deadline, any
prior registration row whose status is not `CANCELLED` — including a
`COMPLETED` row from an attended past run — makes `register` fail with
the already-registered conflict. -/
theorem C10_theorem (db : DB) (u e now : Nat) (chk : Except String String)
    (ev : Event) (r : Registration)
    (hev : findEvent db e = some ev) (hopen : ev.status = .published)
    (hdl : deadlinePassed ev now = false)
    (hr : findRegByEventUser db e u = some r) (hst : r.status ≠ .cancelled) :
    register db u e now chk = .error .alreadyRegistered := by
  have hblock : blockedByRegistration db e u = true := by
    unfold blockedByRegistration
    rw [hr]
    simpa using hst
  unfold register
  rw [hev]
  dsimp only
  rw [if_neg (not_not_intro hopen),
    if_neg (by rw [hdl]; exact fun hc => nomatch hc),
    if_pos hblock]

/-- Witness for C10: the completed row of `c10db` blocks a new
registration attempt. -/
theorem C10_witness :
    register c10db 100 1 2 (.ok "u") = .error .alreadyRegistered :=
  C10_theorem c10db 100 1 2 (.ok "u") freeEvent1 c10reg rfl rfl rfl rfl (by decide)

end EventReg
